import Mathlib

/-!
Verification of the pairwise-comparison ranking core of the
`junior-developer` repository against its natural-language specification.

The development shallowly embeds the relevant Python code:

* `src/junior_dev/scoring.py` — `compute_bt_mm` and `BTMMScoringEngine`
  (namespace `BTMM`);
* `src/elo_scoring_engine.py` — `ELOScoringEngine` (namespace `ELO`);
* `src/junior_dev/judge.py` — `PairwiseJudge` (namespace `Judge`);
* `src/junior_dev/shinka/evaluate.py` — `_select_opponents` and the phase-2
  neighbour filtering (namespace `Select`).

Embedding conventions: SQLite tables become Lean lists of rows in insertion
order (`rowid` order, which is what unqualified `SELECT`s return); Python
floats become `ℚ` (exact arithmetic idealisation of IEEE doubles); wall-clock
reads (`time.time()`) become an explicit `now : ℚ` argument threaded through
each call; Python exceptions become an `Except` result paired with the store
the caller is left with.
-/

/-- A row of the `bt_scores` / `elo_scores` table (the two engines use the
same schema; `score` models the `bt_score` respectively `elo_score` column). -/
structure ScoreRow where
  candidate_id : String
  score : ℚ
  num_comparisons : ℕ
  wins : ℕ
  losses : ℕ
  ties : ℕ
  created_at : ℚ
  updated_at : ℚ
deriving DecidableEq

/-- A row of the `comparisons` table (again one schema shared by both engines;
`score_a_before` models `elo_a_before` for the ELO engine, and so on). -/
structure CompRow where
  candidate_a : String
  candidate_b : String
  winner : String
  score_a_before : ℚ
  score_b_before : ℚ
  score_a_after : ℚ
  score_b_after : ℚ
  judge_reasoning : String
  timestamp : ℚ
deriving DecidableEq

/-- The persistent state of a scoring engine: the two tables, each as a list
of rows in insertion order. -/
structure Store where
  scores : List ScoreRow
  comps : List CompRow
deriving DecidableEq

/-- A freshly created database (empty tables). -/
def emptyStore : Store := ⟨[], []⟩

/-- The `WHERE (candidate_a = ? AND candidate_b = ?) OR (candidate_a = ? AND
candidate_b = ?)` predicate used by both engines for unordered-pair lookups. -/
def rowMatches (c : CompRow) (a b : String) : Bool :=
  (c.candidate_a == a && c.candidate_b == b) || (c.candidate_a == b && c.candidate_b == a)

/-- `BTMMScoringEngine._comparison_exists` / `ELOScoringEngine.comparison_exists`:
symmetric membership test on the `comparisons` table (both orderings checked). -/
def comparison_exists (st : Store) (a b : String) : Bool :=
  st.comps.any (fun c => rowMatches c a b)

/-- `BTMMScoringEngine.get_comparison` / `ELOScoringEngine.get_comparison`:
first row matching either ordering of the pair (`fetchone` on the table in
insertion order), or `none`. -/
def get_comparison (st : Store) (a b : String) : Option CompRow :=
  st.comps.find? (fun c => rowMatches c a b)

/-- `SELECT ... WHERE candidate_id = ?` then `fetchone`. -/
def findScore (st : Store) (cid : String) : Option ScoreRow :=
  st.scores.find? (fun r => r.candidate_id == cid)

/-- Whether a candidate row exists. -/
def hasScore (st : Store) (cid : String) : Bool :=
  st.scores.any (fun r => r.candidate_id == cid)

namespace BTMM

/-! ### `compute_bt_mm` (scoring.py lines 53-88)

The source builds `numpy` arrays indexed by `idx_map = {c: i for i, c in
enumerate(candidates)}`; we mirror the index-based formulation exactly. -/

/-- `idx_map[c]`: index assigned to candidate `c` by the Python dict
comprehension (later occurrences overwrite earlier ones, hence the fold
keeping the last hit; a missing candidate would raise `KeyError` in Python
and is given the junk index `0` here — the engine only ever passes
comparisons over candidates drawn from the score table). -/
def idxMap (cands : List String) (c : String) : ℕ :=
  cands.enum.foldl (fun acc p => if p.2 == c then p.1 else acc) 0

/-- The amount the accumulation loop `wins[i] += score; wins[j] += 1 - score`
adds to `wins[i]` for one comparison record. -/
def btWinsContrib (cands : List String) (i : ℕ) (c : String × String × ℚ) : ℚ :=
  (if idxMap cands c.1 = i then c.2.2 else 0) +
  (if idxMap cands c.2.1 = i then 1 - c.2.2 else 0)

/-- `wins[i]` after the accumulation loop. -/
def btWins (cands : List String) (comps : List (String × String × ℚ)) (i : ℕ) : ℚ :=
  (comps.map (btWinsContrib cands i)).sum

/-- The amount `comp_matrix[i, j] += 1; comp_matrix[j, i] += 1` adds to
`comp_matrix[i, j]` for one comparison record (a self-comparison adds `2`
to the diagonal, exactly as in the source). -/
def btCompMContrib (cands : List String) (i j : ℕ) (c : String × String × ℚ) : ℚ :=
  (if idxMap cands c.1 = i ∧ idxMap cands c.2.1 = j then 1 else 0) +
  (if idxMap cands c.2.1 = i ∧ idxMap cands c.1 = j then 1 else 0)

/-- `comp_matrix[i, j]` after the accumulation loop. -/
def btCompM (cands : List String) (comps : List (String × String × ℚ)) (i j : ℕ) : ℚ :=
  (comps.map (btCompMContrib cands i j)).sum

/-- The clamping floor `1e-10` from the source. -/
def btFloor : ℚ := 1 / 10 ^ 10

/-- `denom = sum(comp_matrix[i, j] / (theta_old[i] + theta_old[j]) for j in
range(n) if comp_matrix[i, j] > 0)`. -/
def btDenom (cands : List String) (comps : List (String × String × ℚ))
    (thetaOld : List ℚ) (i : ℕ) : ℚ :=
  (((List.range thetaOld.length).filter
      (fun j => decide (0 < btCompM cands comps i j))).map
    (fun j => btCompM cands comps i j / (thetaOld.getD i 0 + thetaOld.getD j 0))).sum

/-- One pass of the inner `for i in range(n)` loop: every new `theta[i]` is
computed from `theta_old` (the source copies the vector first, so the update
is simultaneous). -/
def btStep (cands : List String) (comps : List (String × String × ℚ))
    (thetaOld : List ℚ) : List ℚ :=
  (List.range thetaOld.length).map (fun i =>
    if btWins cands comps i = 0 then btFloor
    else
      let denom := btDenom cands comps thetaOld i
      if 0 < denom then btWins cands comps i / denom else btFloor)

/-- `np.max(np.abs(theta - theta_old))`. -/
def maxAbsDiff (a b : List ℚ) : ℚ :=
  ((a.zip b).map (fun p => |p.1 - p.2|)).foldl max 0

/-- The `for iteration in range(max_iter)` loop with its early `break` when
`np.max(np.abs(theta - theta_old)) < tol`. -/
def btLoop (cands : List String) (comps : List (String × String × ℚ))
    (tol : ℚ) : ℕ → List ℚ → List ℚ
  | 0, theta => theta
  | fuel + 1, theta =>
    let theta2 := btStep cands comps theta
    if maxAbsDiff theta2 theta < tol then theta2
    else btLoop cands comps tol fuel theta2

/-- `compute_bt_mm(candidates, comparisons, max_iter=100, tol=1e-6)`:
runs the MM fixed-point iteration from the all-ones vector and rescales so
the total is `1000`, returning the result dict as an association list in
index order (Python dict insertion order). -/
def compute_bt_mm (cands : List String) (comps : List (String × String × ℚ))
    (maxIter : ℕ) (tol : ℚ) : List (String × ℚ) :=
  if cands.isEmpty then []
  else
    let thetaFin := btLoop cands comps tol maxIter (List.replicate cands.length 1)
    let total := thetaFin.sum
    let thetas := if 0 < total then thetaFin.map (fun t => t / total * 1000) else thetaFin
    cands.enum.map (fun p => (p.2, thetas.getD p.1 0))

/-- Python `dict` lookup on an association list built by successive binding
(later bindings shadow earlier ones), i.e. `d[k]` if present. -/
def dictFind (l : List (String × ℚ)) (k : String) : Option ℚ :=
  l.foldl (fun acc p => if p.1 == k then some p.2 else acc) none

/-- `d.get(k, default)`. -/
def dictGet (l : List (String × ℚ)) (k : String) (d : ℚ) : ℚ :=
  (dictFind l k).getD d

/-! ### `BTMMScoringEngine` (scoring.py lines 91-344)

The engine fixes `initial_score = 1.0`; `convergence_tol` and
`max_iterations` (defaults `1e-6` and `100`) are passed as parameters. -/

/-- `get_score`: returns the current score, inserting a fresh row with the
initial score `1.0` for an unseen candidate (the side effect is returned as
the second component). -/
def get_score (st : Store) (cid : String) (now : ℚ) : ℚ × Store :=
  match findScore st cid with
  | some r => (r.score, st)
  | none => (1, { st with scores := st.scores ++ [⟨cid, 1, 0, 0, 0, 0, now, now⟩] })

/-- `_update_candidate`: bumps `num_comparisons` and exactly the counters
selected by `is_win` / `is_loss` / `is_tie` on the rows with the given id. -/
def update_candidate (st : Store) (cid winner persp : String) (now : ℚ) : Store :=
  { st with scores := st.scores.map (fun r =>
      if r.candidate_id == cid then
        { r with
          num_comparisons := r.num_comparisons + 1,
          wins := r.wins + (if winner == persp then 1 else 0),
          losses := r.losses + (if winner != persp && winner != "tie" then 1 else 0),
          ties := r.ties + (if winner == "tie" then 1 else 0),
          updated_at := now }
      else r) }

/-- `_store_comparison`: inserts a comparison row. -/
def store_comparison (st : Store) (a b winner : String) (saOld sbOld saNew sbNew : ℚ)
    (reasoning : String) (now : ℚ) : Store :=
  { st with comps := st.comps ++ [⟨a, b, winner, saOld, sbOld, saNew, sbNew, reasoning, now⟩] }

/-- The `{'a': 1.0, 'tie': 0.5, 'b': 0.0}[winner]` translation (the table's
CHECK constraint restricts `winner` to those three values; other values are
mapped to `0` here where Python would raise `KeyError`). -/
def winnerScore (w : String) : ℚ :=
  if w == "a" then 1 else if w == "tie" then 1 / 2 else 0

/-- `_recompute_all_scores`: rebuilds the candidate list and comparison list
from the tables, runs `compute_bt_mm`, and writes every new score back; when
there is no comparison at all it returns the initial score for everyone
without touching the table. -/
def recompute_all_scores (st : Store) (maxIter : ℕ) (tol : ℚ) (now : ℚ) :
    List (String × ℚ) × Store :=
  let cands := st.scores.map (fun r => r.candidate_id)
  let comps := st.comps.map (fun c => (c.candidate_a, c.candidate_b, winnerScore c.winner))
  if comps.isEmpty then
    (cands.map (fun c => (c, (1 : ℚ))), st)
  else
    let newScores := compute_bt_mm cands comps maxIter tol
    (newScores,
     { st with scores := st.scores.map (fun r =>
         match dictFind newScores r.candidate_id with
         | some s => { r with score := s, updated_at := now }
         | none => r) })

/-- `record_comparison` (scoring.py lines 165-192): validates the winner,
returns the current scores unchanged for an already-recorded unordered pair,
and otherwise updates counters, inserts the row, refits all scores and
patches the new row's after-scores. The first component is the Python
return value (or the raised `ValueError`); the second is the store the
caller is left with. -/
def record_comparison (st : Store) (a b winner reasoning : String)
    (maxIter : ℕ) (tol : ℚ) (now : ℚ) : Except String (ℚ × ℚ) × Store :=
  if winner != "a" && winner != "b" && winner != "tie" then
    (Except.error ("Invalid winner: " ++ winner), st)
  else if comparison_exists st a b then
    let p1 := get_score st a now
    let p2 := get_score p1.2 b now
    (Except.ok (p1.1, p2.1), p2.2)
  else
    let p1 := get_score st a now
    let p2 := get_score p1.2 b now
    let saOld := p1.1
    let sbOld := p2.1
    let st3 := update_candidate p2.2 a winner "a" now
    let st4 := update_candidate st3 b winner "b" now
    let st5 := store_comparison st4 a b winner saOld sbOld saOld sbOld reasoning now
    let rec6 := recompute_all_scores st5 maxIter tol now
    let saNew := (dictFind rec6.1 a).getD saOld
    let sbNew := (dictFind rec6.1 b).getD sbOld
    let st7 := { rec6.2 with comps := rec6.2.comps.map (fun c =>
        if c.candidate_a == a && c.candidate_b == b then
          { c with score_a_after := saNew, score_b_after := sbNew }
        else c) }
    (Except.ok (saNew, sbNew), st7)

end BTMM

namespace ELO

/-! ### `ELOScoringEngine` (elo_scoring_engine.py)

Parameters `k_factor` and `initial_elo` (defaults `32.0` and `1500.0`) are
passed explicitly.  The only non-rational ingredient of the update is
`10 ** ((elo_b - elo_a) / 400)`; the exponential is abstracted as a function
parameter `exp10 : ℚ → ℚ` (the claims proved below hold for every value of
`exp10`, in particular for the real function `x ↦ 10 ^ x`). -/

/-- `get_elo`: returns the current rating, inserting a fresh row with
`initial_elo` for an unseen candidate. -/
def get_elo (initElo : ℚ) (st : Store) (cid : String) (now : ℚ) : ℚ × Store :=
  match findScore st cid with
  | some r => (r.score, st)
  | none => (initElo, { st with scores := st.scores ++ [⟨cid, initElo, 0, 0, 0, 0, now, now⟩] })

/-- The parameterised `UPDATE elo_scores SET elo_score = ?, num_comparisons =
num_comparisons + 1, wins = wins + ?, losses = losses + ?, ties = ties + ?,
updated_at = ? WHERE candidate_id = ?` statement issued (once per side) by
`record_comparison`. -/
def update_stats (st : Store) (cid : String) (newScore : ℚ) (dw dl dt : ℕ)
    (now : ℚ) : Store :=
  { st with scores := st.scores.map (fun r : ScoreRow =>
      if r.candidate_id == cid then
        { r with
          score := newScore,
          num_comparisons := r.num_comparisons + 1,
          wins := r.wins + dw,
          losses := r.losses + dl,
          ties := r.ties + dt,
          updated_at := now }
      else r) }

/-- The `INSERT INTO comparisons ...` statement of `record_comparison`. -/
def insert_comparison (st : Store) (row : CompRow) : Store :=
  { st with comps := st.comps ++ [row] }

/-- `record_comparison` (elo_scoring_engine.py lines 330-455): validates the
winner, returns the current ratings unchanged for an already-recorded
unordered pair, and otherwise applies the closed-form ELO update to both
rows and inserts the comparison row. -/
def record_comparison (k initElo : ℚ) (exp10 : ℚ → ℚ) (st : Store)
    (a b winner reasoning : String) (now : ℚ) : Except String (ℚ × ℚ) × Store :=
  if winner != "a" && winner != "b" && winner != "tie" then
    (Except.error ("Invalid winner: " ++ winner ++ ". Must be 'a', 'b', or 'tie'"), st)
  else if comparison_exists st a b then
    let p1 := get_elo initElo st a now
    let p2 := get_elo initElo p1.2 b now
    (Except.ok (p1.1, p2.1), p2.2)
  else
    let p1 := get_elo initElo st a now
    let p2 := get_elo initElo p1.2 b now
    let eloABefore := p1.1
    let eloBBefore := p2.1
    let scoreA : ℚ := if winner == "a" then 1 else if winner == "tie" then 1 / 2 else 0
    let expectedA : ℚ := 1 / (1 + exp10 ((eloBBefore - eloABefore) / 400))
    let expectedB : ℚ := 1 - expectedA
    let eloAAfter := eloABefore + k * (scoreA - expectedA)
    let eloBAfter := eloBBefore + k * ((1 - scoreA) - expectedB)
    let st3 := update_stats p2.2 a eloAAfter
      (if winner == "a" then 1 else 0) (if winner == "b" then 1 else 0)
      (if winner == "tie" then 1 else 0) now
    let st4 := update_stats st3 b eloBAfter
      (if winner == "b" then 1 else 0) (if winner == "a" then 1 else 0)
      (if winner == "tie" then 1 else 0) now
    let st5 := insert_comparison st4
      ⟨a, b, winner, eloABefore, eloBBefore, eloAAfter, eloBAfter, reasoning, now⟩
    (Except.ok (eloAAfter, eloBAfter), st5)

end ELO

namespace Judge

/-! ### `PairwiseJudge` (judge.py)

The oracle is modelled by two attempt-indexed parameters: `llmResponses`
(`some (content, cost)` when `self.llm.query` yields a response, `none` when
there is no LLM client or the query returns `None`) and `mockChoices` (the
`random.choice` stream of `_mock_llm_response`).  The prompt built by
`_build_prompt` only determines the oracle's input text; since the oracle's
answers are universally quantified, the prompt is not re-modelled here.
The `random.random() < SWAP_PROBABILITY` coin and the
`random.choice(["first", "second"])` fallback become the Boolean parameters
`swapped` and `fallbackFirst`. -/

def MAX_TIE_RETRIES : ℕ := 2

/-- A line matching `^candidate:\s*(first|second)\s*$` (case-insensitive),
returning the lowercased group. -/
def lineCandidate (line : String) : Option String :=
  let l := line.toLower
  if l.startsWith "candidate:" then
    let rest := (l.drop "candidate:".length).trim
    if rest = "first" then some "first"
    else if rest = "second" then some "second"
    else none
  else none

/-- Digit-string value (the grammar guarantees only digits appear). -/
def digitsVal (s : List Char) : ℕ :=
  s.foldl (fun n c => n * 10 + (c.toNat - 48)) 0

def isDigits (s : List Char) : Bool :=
  !s.isEmpty && s.all (fun c => c.isDigit)

/-- `float(...)` of a string matching `[0-9]*\.?[0-9]+`, exactly. -/
def parseDecimal (s : String) : Option ℚ :=
  match s.splitOn "." with
  | [w] => if isDigits w.data then some (digitsVal w.data) else none
  | [w, f] =>
    if (w.isEmpty || isDigits w.data) && isDigits f.data then
      some ((digitsVal w.data : ℚ) + (digitsVal f.data : ℚ) / 10 ^ f.length)
    else none
  | _ => none

/-- A line matching `^confidence:\s*([0-9]*\.?[0-9]+)\s*$` (case-insensitive). -/
def lineConfidence (line : String) : Option ℚ :=
  let l := line.toLower
  if l.startsWith "confidence:" then
    parseDecimal ((l.drop "confidence:".length).trim)
  else none

/-- The `^explanation:\s*(.+?)(?=^candidate:|\Z)` capture, translated
line-wise: the text from the first `explanation:` line up to (excluding) the
next line starting with `candidate:`, stripped.  (The corner case where the
regex's `\s*` runs across the newline directly into a `candidate:` line is
not replicated; no claim below depends on the captured text itself.) -/
def explanationText (response : String) : Option String :=
  let lines := response.splitOn "\n"
  match lines.findIdx? (fun l => l.toLower.startsWith "explanation:") with
  | none => none
  | some k =>
    let firstLine := (lines.getD k "").drop "explanation:".length
    let body := (lines.drop (k + 1)).takeWhile
      (fun l => !l.toLower.startsWith "candidate:")
    let captured := String.intercalate "\n" (firstLine :: body)
    if captured.isEmpty then none else some captured.trim

/-- `_parse_response` (judge.py lines 180-199): returns
`(winner, reasoning, confidence)` with `winner ∈ {first, second, tie}`
("tie" denotes a failed parse), `reasoning` defaulting to the whole
response, and `confidence` clamped to `[0, 1]` with default `0.5`. -/
def parse_response (response : String) : String × String × ℚ :=
  let lines := response.splitOn "\n"
  let winner := match lines.findSome? lineCandidate with
    | some w => w
    | none => "tie"
  let confidence := match lines.findSome? lineConfidence with
    | some c => max 0 (min 1 c)
    | none => (1 / 2 : ℚ)
  let reasoning := match explanationText response with
    | some t => t
    | none => response
  (winner, reasoning, confidence)

/-- `_mock_llm_response`: always parseable, with the `random.choice` winner. -/
def mock_llm_response (choiceFirst : Bool) : String :=
  "explanation:Mock response for testing. Randomly selected winner.\ncandidate:" ++
    (if choiceFirst then "first" else "second") ++ "\nconfidence:0.5"

/-- `_query_llm`: a real response when the oracle yields one, otherwise the
mock/fallback response with cost `0.0`. -/
def query_llm (llmResponses : ℕ → Option (String × ℚ)) (mockChoices : ℕ → Bool)
    (attempt : ℕ) : String × ℚ :=
  match llmResponses attempt with
  | some r => r
  | none => (mock_llm_response (mockChoices attempt), 0)

/-- The `for attempt in range(MAX_TIE_RETRIES)` loop of `compare` with its
early `break`: returns `(winner_presented, reasoning, confidence, cost,
attempts-used)`; the loop keeps the last attempt's values when every parse
fails.  The last component counts the oracle queries actually made. -/
def compareLoop (llmResponses : ℕ → Option (String × ℚ)) (mockChoices : ℕ → Bool) :
    ℕ → ℕ → String × String × ℚ × ℚ × ℕ
  | _, 0 => ("tie", "", 1 / 2, 0, 0)
  | attempt, fuel + 1 =>
    let q := query_llm llmResponses mockChoices attempt
    let p := parse_response q.1
    if p.1 != "tie" then (p.1, p.2.1, p.2.2, q.2, attempt + 1)
    else if fuel = 0 then (p.1, p.2.1, p.2.2, q.2, attempt + 1)
    else compareLoop llmResponses mockChoices (attempt + 1) fuel

/-- The judge's running statistics (`total_comparisons`, `total_cost`). -/
structure JudgeState where
  total_comparisons : ℕ
  total_cost : ℚ
deriving DecidableEq

/-- The degraded-judgment marker appended on total parse failure
(`MAX_TIE_RETRIES = 2` interpolated as in the f-string). -/
def degradedMarker : String :=
  "\n\n[Note: Judge failed to parse after 2 attempts; randomly selected winner]"

/-- `PairwiseJudge.compare` (judge.py lines 76-113): queries the oracle up to
`MAX_TIE_RETRIES` times, falls back to a random decisive pick with the
degraded marker when every parse fails, un-swaps the presented winner back
to the caller's a/b labels, and accumulates the statistics.  Returns
`((winner, reasoning), new statistics)`. -/
def compare (llmResponses : ℕ → Option (String × ℚ)) (mockChoices : ℕ → Bool)
    (swapped fallbackFirst : Bool) (js : JudgeState) :
    (String × String) × JudgeState :=
  let r := compareLoop llmResponses mockChoices 0 MAX_TIE_RETRIES
  let winnerPresented := r.1
  let reasoning0 := r.2.1
  let cost := r.2.2.2.1
  let wr :=
    if winnerPresented == "tie" then
      ((if fallbackFirst then "first" else "second"), reasoning0 ++ degradedMarker)
    else (winnerPresented, reasoning0)
  let winner :=
    if swapped then (if wr.1 == "first" then "b" else "a")
    else (if wr.1 == "first" then "a" else "b")
  ((winner, wr.2), ⟨js.total_comparisons + 1, js.total_cost + cost⟩)

end Judge

namespace Select

/-! ### Opponent selection (shinka/evaluate.py)

`engine.get_random_candidates` runs `ORDER BY RANDOM() LIMIT n`, so its
output is modelled as a parameter constrained by the contract below;
`get_quartile_candidates` and `get_neighbor_candidates` are called on the
engine but are not part of the sources, so their outputs are modelled from
the spec the same way. -/

/-- Contract of `get_random_candidates(n, exclude)` (scoring.py lines
212-221): at most `n` candidate ids, none of them excluded. -/
def randomContract (result : List String) (n : ℕ) (exclude : List String) : Prop :=
  result.length ≤ n ∧ ∀ c ∈ result, c ∉ exclude

/-- Modelled from the spec: `get_quartile_candidates(n_quartiles, exclude)`
is missing from the sources; §4.5 describes it as returning "opponents
spanning score quartiles of the current ranking — one representative near
each quartile boundary", excluding the given candidates, so it yields at
most `n_quartiles` ids none of which is excluded. -/
def quartileContract (result : List String) (nQuartiles : ℕ) (exclude : List String) : Prop :=
  result.length ≤ nQuartiles ∧ ∀ c ∈ result, c ∉ exclude

/-- Modelled from the spec: `get_neighbor_candidates(candidate_id, n)` is
missing from the sources; §4.5 describes phase 2 as selecting "the
candidates whose updated score is numerically closest to the new
candidate's", deduplicated "against the candidate itself", so it yields at
most `n` ids distinct from the candidate. -/
def neighborContract (result : List String) (n : ℕ) (candidateId : String) : Prop :=
  result.length ≤ n ∧ ∀ c ∈ result, c ≠ candidateId

/-- `dict.fromkeys` deduplication: keeps the first occurrence of each id in
order. -/
def pyDedupAux : List String → List String → List String
  | [], _ => []
  | x :: xs, seen =>
    if x ∈ seen then pyDedupAux xs seen else x :: pyDedupAux xs (x :: seen)

def pyDedup (l : List String) : List String := pyDedupAux l []

/-- `_select_opponents` (evaluate.py lines 285-301) with the two sampler
outputs supplied as arguments: computes the phase budgets
(`int(0.3 * N)` and `int(0.4 * N)` idealised to exact floors, which agree
with the float computation for all these arguments), deduplicates
random-plus-quartile ids, filters out already-recorded pairs, and returns
the phase-1 list together with `n_neighbors`. -/
def select_opponents (st : Store) (candidateId : String) (numComparisons : ℕ)
    (randomIds quartileIds : List String) : List String × ℕ :=
  let nRandom := max 1 ((3 * numComparisons) / 10)
  let nQuartile := min 4 (max 1 ((4 * numComparisons) / 10))
  let nNeighbors := max 1 (numComparisons - nRandom - nQuartile)
  let phase1 := pyDedup (randomIds ++ quartileIds)
  let phase1f := phase1.filter (fun opp => !(comparison_exists st candidateId opp))
  (phase1f, nNeighbors)

/-- The phase-2 filtering in `evaluate_coding_agent_prompt` (evaluate.py
lines 505-506): drop neighbours already compared against the candidate. -/
def phase2_opponents (st2 : Store) (candidateId : String)
    (neighborIds : List String) : List String :=
  neighborIds.filter (fun opp => !(comparison_exists st2 candidateId opp))

end Select

/-! ### Call sequences against a store (for the counter-consistency claims) -/

/-- One call against a scoring engine: a score read (`get_score` / `get_elo`)
or a comparison record. -/
inductive StoreOp where
  | getScore (id : String) (now : ℚ)
  | record (a b winner reasoning : String) (now : ℚ)

/-- Whether an operation relates two distinct candidates (score reads always
do). -/
def opDistinct : StoreOp → Bool
  | .getScore _ _ => true
  | .record a b _ _ _ => a != b

namespace BTMM

def runOp (maxIter : ℕ) (tol : ℚ) (st : Store) : StoreOp → Store
  | .getScore id now => (get_score st id now).2
  | .record a b w r now => (record_comparison st a b w r maxIter tol now).2

/-- The store left behind by a sequence of calls starting from a fresh
database. -/
def runOps (maxIter : ℕ) (tol : ℚ) (ops : List StoreOp) : Store :=
  ops.foldl (runOp maxIter tol) emptyStore

end BTMM

namespace ELO

def runOp (k initElo : ℚ) (exp10 : ℚ → ℚ) (st : Store) : StoreOp → Store
  | .getScore id now => (get_elo initElo st id now).2
  | .record a b w r now => (record_comparison k initElo exp10 st a b w r now).2

/-- The store left behind by a sequence of calls starting from a fresh
database. -/
def runOps (k initElo : ℚ) (exp10 : ℚ → ℚ) (ops : List StoreOp) : Store :=
  ops.foldl (runOp k initElo exp10) emptyStore

end ELO

/-- Whether a comparison row mentions the candidate (as either side). -/
def mentionsRow (c : CompRow) (id : String) : Bool :=
  c.candidate_a == id || c.candidate_b == id

/-- Number of stored comparison rows mentioning the candidate. -/
def countMentions (st : Store) (id : String) : ℕ :=
  (st.comps.filter (fun c => mentionsRow c id)).length

/-- The counter-consistency invariant: every candidate row satisfies
`wins + losses + ties = num_comparisons`, and `num_comparisons` equals the
number of stored comparison rows mentioning that candidate. -/
def counterInv (st : Store) : Prop :=
  ∀ r ∈ st.scores,
    r.wins + r.losses + r.ties = r.num_comparisons ∧
    r.num_comparisons = countMentions st r.candidate_id

/-- Whether a call outcome is a raised exception. -/
def exceptIsError {α : Type} (e : Except String α) : Bool :=
  match e with
  | .error _ => true
  | .ok _ => false

/-! ## Theorems -/

/-- **C8** — Lookup symmetry: for all candidate ids `a`, `b` and every store
state, `comparison_exists(a, b) = comparison_exists(b, a)` and
`get_comparison(a, b)` returns the same result as `get_comparison(b, a)`,
because both lookups check both orderings of the unordered pair. -/
theorem lookup_symmetry (st : Store) (a b : String) :
    comparison_exists st a b = comparison_exists st b a ∧
    get_comparison st a b = get_comparison st b a := by
  have hrow : ∀ c : CompRow, rowMatches c a b = rowMatches c b a := by
    intro c
    rw [rowMatches, rowMatches, Bool.or_comm]
  constructor
  · rw [comparison_exists, comparison_exists]
    congr 1
    funext c
    exact hrow c
  · rw [get_comparison, get_comparison]
    congr 1
    funext c
    exact hrow c

/-- **C3** — ELO zero-sum: recording a previously-unrecorded pair with any
valid winner returns the two updated ratings, and the two rating changes
cancel exactly: `(elo_a_after - elo_a_before) + (elo_b_after - elo_b_before)
= 0` (exact in this rational model, since `expected_b = 1 - expected_a`;
the statement holds for every modelled exponential `exp10`). -/
theorem elo_zero_sum (k initElo : ℚ) (exp10 : ℚ → ℚ) (st : Store)
    (a b w r : String) (now : ℚ)
    (hw : w = "a" ∨ w = "b" ∨ w = "tie")
    (hex : comparison_exists st a b = false) :
    (ELO.record_comparison k initElo exp10 st a b w r now).1 =
      Except.ok
        ((ELO.get_elo initElo st a now).1 +
           k * ((if w == "a" then 1 else if w == "tie" then 1 / 2 else 0) -
             1 / (1 + exp10 (((ELO.get_elo initElo (ELO.get_elo initElo st a now).2 b now).1 -
               (ELO.get_elo initElo st a now).1) / 400))),
         (ELO.get_elo initElo (ELO.get_elo initElo st a now).2 b now).1 +
           k * ((1 - (if w == "a" then 1 else if w == "tie" then 1 / 2 else 0)) -
             (1 - 1 / (1 + exp10 (((ELO.get_elo initElo (ELO.get_elo initElo st a now).2 b now).1 -
               (ELO.get_elo initElo st a now).1) / 400))))) ∧
    ∀ eloA eloB expA sA : ℚ,
      ((eloA + k * (sA - expA)) - eloA) + ((eloB + k * ((1 - sA) - (1 - expA))) - eloB) = 0 := by
  have hcond : (w != "a" && w != "b" && w != "tie") = false := by
    rcases hw with h | h | h <;> subst h <;> rfl
  constructor
  · rw [ELO.record_comparison, hcond]
    simp only [Bool.false_eq_true, if_false, hex]
  · intro eloA eloB expA sA
    ring

/-- **C3 witness**: a concrete instance of the zero-sum theorem (fresh store,
winner `"a"`, the exponential queried only at `0` where `10 ^ 0 = 1`). -/
theorem elo_zero_sum_witness :
    (ELO.record_comparison 32 1500 (fun _ => 1) emptyStore "p1" "p2" "a" "" 0).1 =
      Except.ok
        ((ELO.get_elo 1500 emptyStore "p1" 0).1 +
           32 * ((if "a" == "a" then 1 else if "a" == "tie" then 1 / 2 else 0) -
             1 / (1 + (fun _ : ℚ => (1:ℚ)) (((ELO.get_elo 1500 (ELO.get_elo 1500 emptyStore "p1" 0).2 "p2" 0).1 -
               (ELO.get_elo 1500 emptyStore "p1" 0).1) / 400))),
         (ELO.get_elo 1500 (ELO.get_elo 1500 emptyStore "p1" 0).2 "p2" 0).1 +
           32 * ((1 - (if "a" == "a" then 1 else if "a" == "tie" then 1 / 2 else 0)) -
             (1 - 1 / (1 + (fun _ : ℚ => (1:ℚ)) (((ELO.get_elo 1500 (ELO.get_elo 1500 emptyStore "p1" 0).2 "p2" 0).1 -
               (ELO.get_elo 1500 emptyStore "p1" 0).1) / 400))))) ∧
    ∀ eloA eloB expA sA : ℚ,
      ((eloA + 32 * (sA - expA)) - eloA) + ((eloB + 32 * ((1 - sA) - (1 - expA))) - eloB) = 0 :=
  elo_zero_sum 32 1500 (fun _ => 1) emptyStore "p1" "p2" "a" "" 0 (Or.inl rfl) rfl


/-- **C7** — Invalid winner fails fast: for both engines,
`record_comparison` fails (raises `ValueError`) exactly when the winner is
outside `{a, b, tie}` — in particular it fails even when the pair is already
recorded, since validation precedes the duplicate check — and on failure the
store is left unchanged. -/
theorem invalid_winner_fails_fast (st : Store) (a b w r : String) (now : ℚ)
    (maxIter : ℕ) (tol k initElo : ℚ) (exp10 : ℚ → ℚ) :
    (exceptIsError (BTMM.record_comparison st a b w r maxIter tol now).1 = true ↔
      ¬(w = "a" ∨ w = "b" ∨ w = "tie")) ∧
    (¬(w = "a" ∨ w = "b" ∨ w = "tie") →
      (BTMM.record_comparison st a b w r maxIter tol now).2 = st) ∧
    (exceptIsError (ELO.record_comparison k initElo exp10 st a b w r now).1 = true ↔
      ¬(w = "a" ∨ w = "b" ∨ w = "tie")) ∧
    (¬(w = "a" ∨ w = "b" ∨ w = "tie") →
      (ELO.record_comparison k initElo exp10 st a b w r now).2 = st) := by
  by_cases hval : w = "a" ∨ w = "b" ∨ w = "tie"
  · have hcond : (w != "a" && w != "b" && w != "tie") = false := by
      rcases hval with h | h | h <;> subst h <;> rfl
    have hbt : exceptIsError (BTMM.record_comparison st a b w r maxIter tol now).1 = false := by
      rw [BTMM.record_comparison, hcond]
      simp only [Bool.false_eq_true, if_false]
      by_cases hex : comparison_exists st a b <;> simp [hex, exceptIsError]
    have helo : exceptIsError (ELO.record_comparison k initElo exp10 st a b w r now).1 = false := by
      rw [ELO.record_comparison, hcond]
      simp only [Bool.false_eq_true, if_false]
      by_cases hex : comparison_exists st a b <;> simp [hex, exceptIsError]
    refine ⟨?_, ?_, ?_, ?_⟩
    · rw [hbt]; simp [hval]
    · intro h; exact absurd hval h
    · rw [helo]; simp [hval]
    · intro h; exact absurd hval h
  · have hcond : (w != "a" && w != "b" && w != "tie") = true := by
      push_neg at hval
      simp only [bne_iff_ne, ne_eq, Bool.and_eq_true]
      exact ⟨⟨hval.1, hval.2.1⟩, hval.2.2⟩
    have hbt : BTMM.record_comparison st a b w r maxIter tol now =
        (Except.error ("Invalid winner: " ++ w), st) := by
      rw [BTMM.record_comparison, hcond]
      rfl
    have helo : ELO.record_comparison k initElo exp10 st a b w r now =
        (Except.error ("Invalid winner: " ++ w ++ ". Must be 'a', 'b', or 'tie'"), st) := by
      rw [ELO.record_comparison, hcond]
      rfl
    refine ⟨?_, ?_, ?_, ?_⟩
    · rw [hbt]; simp [hval, exceptIsError]
    · intro _; rw [hbt]
    · rw [helo]; simp [hval, exceptIsError]
    · intro _; rw [helo]

/-- **C7 witness**: the fail-fast equivalence instantiated at the invalid
winner `"x"` on a store whose pair `(p1, p2)` is already recorded. -/
theorem invalid_winner_fails_fast_witness :
    (exceptIsError (BTMM.record_comparison ⟨[], [⟨"p1", "p2", "a", 1, 1, 1, 1, "", 0⟩]⟩
        "p1" "p2" "x" "" 100 (1/10^6) 0).1 = true ↔
      ¬("x" = "a" ∨ "x" = "b" ∨ "x" = "tie")) ∧
    (¬("x" = "a" ∨ "x" = "b" ∨ "x" = "tie") →
      (BTMM.record_comparison ⟨[], [⟨"p1", "p2", "a", 1, 1, 1, 1, "", 0⟩]⟩
        "p1" "p2" "x" "" 100 (1/10^6) 0).2 = ⟨[], [⟨"p1", "p2", "a", 1, 1, 1, 1, "", 0⟩]⟩) ∧
    (exceptIsError (ELO.record_comparison 32 1500 (fun _ => 1) ⟨[], [⟨"p1", "p2", "a", 1, 1, 1, 1, "", 0⟩]⟩
        "p1" "p2" "x" "" 0).1 = true ↔
      ¬("x" = "a" ∨ "x" = "b" ∨ "x" = "tie")) ∧
    (¬("x" = "a" ∨ "x" = "b" ∨ "x" = "tie") →
      (ELO.record_comparison 32 1500 (fun _ => 1) ⟨[], [⟨"p1", "p2", "a", 1, 1, 1, 1, "", 0⟩]⟩
        "p1" "p2" "x" "" 0).2 = ⟨[], [⟨"p1", "p2", "a", 1, 1, 1, 1, "", 0⟩]⟩) :=
  invalid_winner_fails_fast ⟨[], [⟨"p1", "p2", "a", 1, 1, 1, 1, "", 0⟩]⟩
    "p1" "p2" "x" "" 0 100 (1/10^6) 32 1500 (fun _ => 1)

/-- **C5 (amended)** — Re-record return value: for every already-recorded
unordered pair and every valid winner argument, `record_comparison` leaves
the comparison table untouched and returns the candidates' *current* scores
(`get_score` / `get_elo`, including their lazy row-creation side effect) —
which are the stored row's after-scores only as long as no later global
refit or update has moved them. -/
theorem rerecord_returns_current_scores (st : Store) (a b w r : String) (now : ℚ)
    (maxIter : ℕ) (tol k initElo : ℚ) (exp10 : ℚ → ℚ)
    (hw : w = "a" ∨ w = "b" ∨ w = "tie")
    (hex : comparison_exists st a b = true) :
    BTMM.record_comparison st a b w r maxIter tol now =
      (Except.ok ((BTMM.get_score st a now).1,
         (BTMM.get_score (BTMM.get_score st a now).2 b now).1),
       (BTMM.get_score (BTMM.get_score st a now).2 b now).2) ∧
    ELO.record_comparison k initElo exp10 st a b w r now =
      (Except.ok ((ELO.get_elo initElo st a now).1,
         (ELO.get_elo initElo (ELO.get_elo initElo st a now).2 b now).1),
       (ELO.get_elo initElo (ELO.get_elo initElo st a now).2 b now).2) := by
  have hcond : (w != "a" && w != "b" && w != "tie") = false := by
    rcases hw with h | h | h <;> subst h <;> rfl
  constructor
  · rw [BTMM.record_comparison, hcond]
    simp only [Bool.false_eq_true, if_false, hex, if_true]
  · rw [ELO.record_comparison, hcond]
    simp only [Bool.false_eq_true, if_false, hex, if_true]

/-- **C5 witness**: the amended re-record behaviour instantiated on a store
whose pair `(p1, p2)` is recorded. -/
theorem rerecord_returns_current_scores_witness :
    BTMM.record_comparison ⟨[], [⟨"p1", "p2", "a", 1, 1, 1, 1, "", 0⟩]⟩
        "p1" "p2" "b" "" 100 (1/10^6) 0 =
      (Except.ok ((BTMM.get_score ⟨[], [⟨"p1", "p2", "a", 1, 1, 1, 1, "", 0⟩]⟩ "p1" 0).1,
         (BTMM.get_score (BTMM.get_score ⟨[], [⟨"p1", "p2", "a", 1, 1, 1, 1, "", 0⟩]⟩ "p1" 0).2 "p2" 0).1),
       (BTMM.get_score (BTMM.get_score ⟨[], [⟨"p1", "p2", "a", 1, 1, 1, 1, "", 0⟩]⟩ "p1" 0).2 "p2" 0).2) ∧
    ELO.record_comparison 32 1500 (fun _ => 1) ⟨[], [⟨"p1", "p2", "a", 1, 1, 1, 1, "", 0⟩]⟩
        "p1" "p2" "b" "" 0 =
      (Except.ok ((ELO.get_elo 1500 ⟨[], [⟨"p1", "p2", "a", 1, 1, 1, 1, "", 0⟩]⟩ "p1" 0).1,
         (ELO.get_elo 1500 (ELO.get_elo 1500 ⟨[], [⟨"p1", "p2", "a", 1, 1, 1, 1, "", 0⟩]⟩ "p1" 0).2 "p2" 0).1),
       (ELO.get_elo 1500 (ELO.get_elo 1500 ⟨[], [⟨"p1", "p2", "a", 1, 1, 1, 1, "", 0⟩]⟩ "p1" 0).2 "p2" 0).2) :=
  rerecord_returns_current_scores ⟨[], [⟨"p1", "p2", "a", 1, 1, 1, 1, "", 0⟩]⟩
    "p1" "p2" "b" "" 0 100 (1/10^6) 32 1500 (fun _ => 1) (Or.inr (Or.inl rfl)) rfl

/-! A concrete run of the ELO engine falsifying C5 as stated.  The modelled
exponential is `fun _ => 1`, and in this run it is only ever evaluated at
the exponent `0` (both rating differences are `0` when the recordings
happen), where the source's `10 ** 0` is also exactly `1`. -/

/-- Store after `record_comparison("p1", "p2", "tie")` on a fresh ELO engine
(`k = 32`, `initial_elo = 1500`). -/
def c5St1 : Store := (ELO.record_comparison 32 1500 (fun _ => 1) emptyStore "p1" "p2" "tie" "" 1).2

/-- ... then after `record_comparison("p1", "p3", "a")`. -/
def c5St2 : Store := (ELO.record_comparison 32 1500 (fun _ => 1) c5St1 "p1" "p3" "a" "" 2).2

lemma c5St1_eq : c5St1 =
    ⟨[⟨"p1", 1500, 1, 0, 0, 1, 1, 1⟩, ⟨"p2", 1500, 1, 0, 0, 1, 1, 1⟩],
     [⟨"p1", "p2", "tie", 1500, 1500, 1500, 1500, "", 1⟩]⟩ := by
  rw [c5St1, ELO.record_comparison]
  simp [comparison_exists, ELO.get_elo, findScore, emptyStore,
    ELO.update_stats, ELO.insert_comparison]
  norm_num

lemma c5St2_eq : c5St2 =
    ⟨[⟨"p1", 1516, 2, 1, 0, 1, 1, 2⟩, ⟨"p2", 1500, 1, 0, 0, 1, 1, 1⟩,
      ⟨"p3", 1484, 1, 0, 1, 0, 2, 2⟩],
     [⟨"p1", "p2", "tie", 1500, 1500, 1500, 1500, "", 1⟩,
      ⟨"p1", "p3", "a", 1500, 1500, 1516, 1484, "", 2⟩]⟩ := by
  rw [c5St2, c5St1_eq, ELO.record_comparison]
  simp [comparison_exists, rowMatches, ELO.get_elo, findScore,
    ELO.update_stats, ELO.insert_comparison]
  norm_num

/-- **C5 counterexample** — after recording `(p1, p2)` as a tie and then
`(p1, p3)` as a win for `p1`, re-recording the pair `(p1, p2)` returns
`(1516, 1500)` — `p1`'s *current* rating — while the after-scores stored in
the existing `(p1, p2)` row are `(1500, 1500)`: the claim's "returns the
after-scores stored in the existing comparison row" is false. -/
theorem rerecord_cached_counterexample :
    (ELO.record_comparison 32 1500 (fun _ => 1) c5St2 "p1" "p2" "b" "" 3).1 =
      Except.ok (1516, 1500) ∧
    (get_comparison c5St2 "p1" "p2").map (fun c => (c.score_a_after, c.score_b_after)) =
      some (1500, 1500) ∧
    ¬(((1516 : ℚ), (1500 : ℚ)) = ((1500 : ℚ), (1500 : ℚ))) := by
  refine ⟨?_, ?_, by norm_num⟩
  · rw [c5St2_eq, ELO.record_comparison]
    simp [comparison_exists, rowMatches, ELO.get_elo, findScore]
  · rw [c5St2_eq]
    simp [get_comparison, rowMatches]

/-- Evaluation of the retry loop for `MAX_TIE_RETRIES = 2`: either the first
response parses decisively (one oracle query) or the loop ends after the
second query, keeping the second attempt's values. -/
lemma compareLoop_eval (llm : ℕ → Option (String × ℚ)) (mock : ℕ → Bool) :
    Judge.compareLoop llm mock 0 Judge.MAX_TIE_RETRIES =
      (if (Judge.parse_response (Judge.query_llm llm mock 0).1).1 != "tie" then
        ((Judge.parse_response (Judge.query_llm llm mock 0).1).1,
         (Judge.parse_response (Judge.query_llm llm mock 0).1).2.1,
         (Judge.parse_response (Judge.query_llm llm mock 0).1).2.2,
         (Judge.query_llm llm mock 0).2, 1)
      else
        ((Judge.parse_response (Judge.query_llm llm mock 1).1).1,
         (Judge.parse_response (Judge.query_llm llm mock 1).1).2.1,
         (Judge.parse_response (Judge.query_llm llm mock 1).1).2.2,
         (Judge.query_llm llm mock 1).2, 2)) := by
  rw [Judge.MAX_TIE_RETRIES, show (2:ℕ) = 1 + 1 from rfl, Judge.compareLoop]
  by_cases h0 : (Judge.parse_response (Judge.query_llm llm mock 0).1).1 != "tie"
  · simp only [h0, if_true]
  · simp only [h0, Bool.false_eq_true, if_false]
    rw [if_neg (by norm_num), Judge.compareLoop]
    by_cases h1 : (Judge.parse_response (Judge.query_llm llm mock 1).1).1 != "tie"
    · simp [h1]
    · simp [h1]

/-- **C4** — Decisive judge never ties and never raises: for every oracle
behaviour (including unparseable and absent responses, the latter replaced
by the mock response), `compare` is a total function returning a winner in
`{a, b}`; it queries the oracle at most `MAX_TIE_RETRIES` times; and when
every attempt fails to parse it returns the degraded judgment: the
`random.choice` fallback un-swapped to the caller's labels, with the
explicit degraded-judgment marker appended to the last attempt's reasoning
text. -/
theorem judge_decisive_no_raise (llm : ℕ → Option (String × ℚ)) (mock : ℕ → Bool)
    (swapped fallbackFirst : Bool) (js : Judge.JudgeState) :
    ((Judge.compare llm mock swapped fallbackFirst js).1.1 = "a" ∨
     (Judge.compare llm mock swapped fallbackFirst js).1.1 = "b") ∧
    (Judge.compareLoop llm mock 0 Judge.MAX_TIE_RETRIES).2.2.2.2 ≤ Judge.MAX_TIE_RETRIES ∧
    ((Judge.parse_response (Judge.query_llm llm mock 0).1).1 = "tie" →
     (Judge.parse_response (Judge.query_llm llm mock 1).1).1 = "tie" →
      (Judge.compare llm mock swapped fallbackFirst js).1.2 =
        (Judge.parse_response (Judge.query_llm llm mock 1).1).2.1 ++ Judge.degradedMarker ∧
      (Judge.compare llm mock swapped fallbackFirst js).1.1 =
        (if swapped then (if fallbackFirst then "b" else "a")
         else (if fallbackFirst then "a" else "b"))) := by
  refine ⟨?_, ?_, ?_⟩
  · rw [Judge.compare]
    by_cases hsw : swapped <;>
      simp only [hsw, if_true, Bool.false_eq_true, if_false] <;>
      split <;> split <;> simp
  · rw [compareLoop_eval]
    split <;> simp [Judge.MAX_TIE_RETRIES]
  · intro h0 h1
    rw [Judge.compare, compareLoop_eval]
    simp only [h0, h1, bne_self_eq_false, Bool.false_eq_true, if_false]
    constructor
    · simp
    · by_cases hf : fallbackFirst <;> by_cases hsw : swapped <;> simp [hf, hsw]

/-- **C4 witness**: the judge applied to an oracle that never yields a
parseable verdict (empty responses on both attempts), with the coin flipped
to swap and the fallback choosing "first". -/
theorem judge_decisive_no_raise_witness :
    ((Judge.compare (fun _ => some ("", 1)) (fun _ => true) true true ⟨0, 0⟩).1.1 = "a" ∨
     (Judge.compare (fun _ => some ("", 1)) (fun _ => true) true true ⟨0, 0⟩).1.1 = "b") ∧
    (Judge.compareLoop (fun _ => some ("", 1)) (fun _ => true) 0 Judge.MAX_TIE_RETRIES).2.2.2.2 ≤
      Judge.MAX_TIE_RETRIES ∧
    ((Judge.parse_response (Judge.query_llm (fun _ => some ("", 1)) (fun _ => true) 0).1).1 = "tie" →
     (Judge.parse_response (Judge.query_llm (fun _ => some ("", 1)) (fun _ => true) 1).1).1 = "tie" →
      (Judge.compare (fun _ => some ("", 1)) (fun _ => true) true true ⟨0, 0⟩).1.2 =
        (Judge.parse_response (Judge.query_llm (fun _ => some ("", 1)) (fun _ => true) 1).1).2.1 ++
          Judge.degradedMarker ∧
      (Judge.compare (fun _ => some ("", 1)) (fun _ => true) true true ⟨0, 0⟩).1.1 =
        (if (true : Bool) then (if (true : Bool) then "b" else "a")
         else (if (true : Bool) then "a" else "b"))) :=
  judge_decisive_no_raise (fun _ => some ("", 1)) (fun _ => true) true true ⟨0, 0⟩

/-- **C10** — Retry costs are discarded: one `compare` call adds exactly `1`
to `total_comparisons` however many oracle attempts were made, and adds to
`total_cost` only the cost of the final attempt (the first attempt's cost
when it parses, otherwise the second's — earlier failed attempts' costs are
overwritten, not summed). -/
theorem retry_cost_overwrite (llm : ℕ → Option (String × ℚ)) (mock : ℕ → Bool)
    (swapped fallbackFirst : Bool) (js : Judge.JudgeState) :
    (Judge.compare llm mock swapped fallbackFirst js).2.total_comparisons =
      js.total_comparisons + 1 ∧
    (Judge.compare llm mock swapped fallbackFirst js).2.total_cost =
      js.total_cost +
        (if (Judge.parse_response (Judge.query_llm llm mock 0).1).1 != "tie"
         then (Judge.query_llm llm mock 0).2
         else (Judge.query_llm llm mock 1).2) := by
  constructor
  · rw [Judge.compare]
  · rw [Judge.compare, compareLoop_eval]
    by_cases h0 : (Judge.parse_response (Judge.query_llm llm mock 0).1).1 = "tie" <;>
      simp [h0]

namespace Select

lemma pyDedupAux_length_le (l seen : List String) :
    (pyDedupAux l seen).length ≤ l.length := by
  induction l generalizing seen with
  | nil => simp [pyDedupAux]
  | cons x xs ih =>
    rw [pyDedupAux]
    by_cases h : x ∈ seen
    · simp only [h, if_true]
      exact Nat.le_succ_of_le (ih seen)
    · simp only [h, if_false]
      simpa using Nat.succ_le_succ (ih (x :: seen))

lemma pyDedup_length_le (l : List String) : (pyDedup l).length ≤ l.length :=
  pyDedupAux_length_le l []

lemma mem_pyDedupAux (l seen : List String) (o : String) (h : o ∈ pyDedupAux l seen) :
    o ∈ l := by
  induction l generalizing seen with
  | nil => simp [pyDedupAux] at h
  | cons x xs ih =>
    rw [pyDedupAux] at h
    by_cases hx : x ∈ seen
    · simp only [hx, if_true] at h
      exact List.mem_cons_of_mem x (ih seen h)
    · simp only [hx, if_false, List.mem_cons] at h
      rcases h with h | h
      · exact h ▸ List.mem_cons_self x xs
      · exact List.mem_cons_of_mem x (ih (x :: seen) h)

lemma mem_pyDedup (l : List String) (o : String) (h : o ∈ pyDedup l) : o ∈ l :=
  mem_pyDedupAux l [] o h

end Select

/-- **C6 (amended)** — Opponent selection budget: whenever the requested
round budget satisfies `N ≥ 3` — so that `n_neighbors` is the true
remainder `N - n_random - n_quartile` — the deduplicated, filtered phase-1
list plus the filtered phase-2 neighbour list together contain at most `N`
opponents, none of which is the candidate itself or a partner in a pair
already recorded at the time of its selection.  (For `N ∈ {1, 2}` the
per-intent minimum of one lets the two phases select up to three
opponents, exceeding the budget; see the counterexample.) -/
theorem opponent_budget_amended (st st2 : Store) (cand : String) (N : ℕ)
    (randomIds quartileIds neighborIds : List String)
    (hN : 3 ≤ N)
    (hr : Select.randomContract randomIds (max 1 ((3 * N) / 10)) [cand])
    (hq : Select.quartileContract quartileIds (min 4 (max 1 ((4 * N) / 10))) [cand])
    (hn : Select.neighborContract neighborIds
      (Select.select_opponents st cand N randomIds quartileIds).2 cand) :
    (Select.select_opponents st cand N randomIds quartileIds).1.length +
      (Select.phase2_opponents st2 cand neighborIds).length ≤ N ∧
    (∀ o ∈ (Select.select_opponents st cand N randomIds quartileIds).1,
      o ≠ cand ∧ comparison_exists st cand o = false) ∧
    (∀ o ∈ Select.phase2_opponents st2 cand neighborIds,
      o ≠ cand ∧ comparison_exists st2 cand o = false) := by
  have hp1 : (Select.select_opponents st cand N randomIds quartileIds).1 =
      (Select.pyDedup (randomIds ++ quartileIds)).filter
        (fun opp => !(comparison_exists st cand opp)) := rfl
  have hp2 : (Select.select_opponents st cand N randomIds quartileIds).2 =
      max 1 (N - max 1 ((3 * N) / 10) - min 4 (max 1 ((4 * N) / 10))) := rfl
  refine ⟨?_, ?_, ?_⟩
  · have h1 : (Select.select_opponents st cand N randomIds quartileIds).1.length ≤
        randomIds.length + quartileIds.length := by
      rw [hp1]
      calc ((Select.pyDedup (randomIds ++ quartileIds)).filter
              (fun opp => !(comparison_exists st cand opp))).length
          ≤ (Select.pyDedup (randomIds ++ quartileIds)).length := List.length_filter_le _ _
        _ ≤ (randomIds ++ quartileIds).length := Select.pyDedup_length_le _
        _ = randomIds.length + quartileIds.length := List.length_append _ _
    have h2 : (Select.phase2_opponents st2 cand neighborIds).length ≤ neighborIds.length :=
      List.length_filter_le _ _
    have hrl := hr.1
    have hql := hq.1
    have hnl := hn.1
    rw [hp2] at hnl
    omega
  · intro o ho
    rw [hp1] at ho
    rw [List.mem_filter] at ho
    refine ⟨?_, ?_⟩
    · have := Select.mem_pyDedup _ o ho.1
      rw [List.mem_append] at this
      rcases this with h | h
      · have := hr.2 o h
        simpa using this
      · have := hq.2 o h
        simpa using this
    · have := ho.2
      simpa using this
  · intro o ho
    rw [Select.phase2_opponents, List.mem_filter] at ho
    refine ⟨hn.2 o ho.1, by simpa using ho.2⟩

/-- **C6 witness**: budget `N = 10` (so `n_random = 3`, `n_quartile = 4`,
`n_neighbors = 3`) with two random picks, one quartile pick and two
neighbours on a fresh store. -/
theorem opponent_budget_amended_witness :
    (Select.select_opponents emptyStore "c" 10 ["r1", "r2"] ["q1"]).1.length +
      (Select.phase2_opponents emptyStore "c" ["n1", "n2"]).length ≤ 10 ∧
    (∀ o ∈ (Select.select_opponents emptyStore "c" 10 ["r1", "r2"] ["q1"]).1,
      o ≠ "c" ∧ comparison_exists emptyStore "c" o = false) ∧
    (∀ o ∈ Select.phase2_opponents emptyStore "c" ["n1", "n2"],
      o ≠ "c" ∧ comparison_exists emptyStore "c" o = false) :=
  opponent_budget_amended emptyStore emptyStore "c" 10 ["r1", "r2"] ["q1"] ["n1", "n2"]
    (by norm_num) (by constructor <;> decide) (by constructor <;> decide)
    (by constructor <;> decide)

/-- **C6 counterexample** — with the minimum budget `N = 1` every intent
still gets its minimum of one (`n_random = n_quartile = n_neighbors = 1`),
so on a population with three available opponents the two phases select
three opponents in total: the claim's bound "total selected does not exceed
the requested round budget" fails for `N = 1`. -/
theorem opponent_budget_counterexample :
    Select.randomContract ["o1"] (max 1 ((3 * 1) / 10)) ["c"] ∧
    Select.quartileContract ["o2"] (min 4 (max 1 ((4 * 1) / 10))) ["c"] ∧
    Select.neighborContract ["o3"] (Select.select_opponents emptyStore "c" 1 ["o1"] ["o2"]).2 "c" ∧
    (Select.select_opponents emptyStore "c" 1 ["o1"] ["o2"]).1.length +
      (Select.phase2_opponents emptyStore "c" ["o3"]).length = 3 ∧
    ¬((Select.select_opponents emptyStore "c" 1 ["o1"] ["o2"]).1.length +
        (Select.phase2_opponents emptyStore "c" ["o3"]).length ≤ 1) := by
  refine ⟨⟨by decide, by decide⟩, ⟨by decide, by decide⟩, ⟨by decide, by decide⟩, by decide, by decide⟩

/-! ### Store lemmas for the idempotence and counter-consistency claims -/

lemma comparison_exists_congr (st1 st2 : Store) (a b : String) (h : st1.comps = st2.comps) :
    comparison_exists st1 a b = comparison_exists st2 a b := by
  rw [comparison_exists, comparison_exists, h]

/-- Score-table rewrites that keep every row's `candidate_id` do not change
which candidates are present. -/
lemma findScore_map_isSome (st : Store) (f : ScoreRow → ScoreRow)
    (hf : ∀ r, (f r).candidate_id = r.candidate_id) (id : String) :
    (findScore { st with scores := st.scores.map f } id).isSome =
      (findScore st id).isSome := by
  show (List.find? _ (st.scores.map f)).isSome = _
  rw [List.find?_map]
  have : ((fun r : ScoreRow => r.candidate_id == id) ∘ f) =
      (fun r : ScoreRow => r.candidate_id == id) := by
    funext r
    simp [Function.comp, hf r]
  rw [this]
  show (Option.map f (List.find? (fun r : ScoreRow => r.candidate_id == id) st.scores)).isSome =
    (List.find? (fun r : ScoreRow => r.candidate_id == id) st.scores).isSome
  cases List.find? (fun r : ScoreRow => r.candidate_id == id) st.scores <;> rfl

/-- Comparison-table rewrites that keep every row's candidate pair do not
change which pairs exist. -/
lemma comparison_exists_map (st : Store) (g : CompRow → CompRow)
    (hg : ∀ c, (g c).candidate_a = c.candidate_a ∧ (g c).candidate_b = c.candidate_b)
    (a b : String) :
    comparison_exists { st with comps := st.comps.map g } a b =
      comparison_exists st a b := by
  show List.any (st.comps.map g) _ = _
  rw [List.any_map]
  congr 1
  funext c
  simp [Function.comp, rowMatches, (hg c).1, (hg c).2]

lemma comparison_exists_append_self (st : Store) (row : CompRow) (a b : String)
    (hrow : rowMatches row a b = true) :
    comparison_exists { st with comps := st.comps ++ [row] } a b = true := by
  show List.any (st.comps ++ [row]) _ = true
  rw [List.any_append]
  simp [hrow]

namespace BTMM

lemma findScore_set_comps (st : Store) (l : List CompRow) (id : String) :
    findScore { st with comps := l } id = findScore st id := rfl

lemma findScore_store_comparison (st : Store) (a b w : String) (sa sb sa2 sb2 : ℚ)
    (rs : String) (now : ℚ) (id : String) :
    findScore (store_comparison st a b w sa sb sa2 sb2 rs now) id = findScore st id := rfl

lemma get_score_comps (st : Store) (id : String) (now : ℚ) :
    (get_score st id now).2.comps = st.comps := by
  rw [get_score]
  rcases h : findScore st id with _ | r <;> simp

lemma get_score_of_isSome (st : Store) (id : String) (now : ℚ)
    (h : (findScore st id).isSome = true) : (get_score st id now).2 = st := by
  rw [get_score]
  rcases hf : findScore st id with _ | r
  · rw [hf] at h; simp at h
  · simp

lemma get_score_isSome_self (st : Store) (id : String) (now : ℚ) :
    (findScore (get_score st id now).2 id).isSome = true := by
  rw [get_score]
  rcases hf : findScore st id with _ | r
  · show (List.find? _ (st.scores ++ [_])).isSome = true
    rw [List.find?_append]
    have : List.find? (fun r : ScoreRow => r.candidate_id == id) st.scores = none := hf
    rw [this]
    simp
  · simp only
    rw [findScore] at hf
    rw [findScore, hf]
    rfl

lemma get_score_isSome_mono (st : Store) (id id2 : String) (now : ℚ)
    (h : (findScore st id2).isSome = true) :
    (findScore (get_score st id now).2 id2).isSome = true := by
  rw [get_score]
  rcases hf : findScore st id with _ | r
  · show (List.find? _ (st.scores ++ [_])).isSome = true
    rw [List.find?_append]
    rcases h2 : List.find? (fun r : ScoreRow => r.candidate_id == id2) st.scores with _ | r2
    · rw [findScore, h2] at h; simp at h
    · simp
  · exact h

lemma update_candidate_isSome (st : Store) (cid w p : String) (now : ℚ) (id : String) :
    (findScore (update_candidate st cid w p now) id).isSome = (findScore st id).isSome := by
  apply findScore_map_isSome
  intro r
  by_cases h : r.candidate_id == cid <;> simp [h]

lemma comparison_exists_store_self (st : Store) (a b w : String) (sa sb sa2 sb2 : ℚ)
    (rs : String) (now : ℚ) :
    comparison_exists (store_comparison st a b w sa sb sa2 sb2 rs now) a b = true := by
  show List.any (st.comps ++ [_]) _ = true
  rw [List.any_append]
  simp [rowMatches]

lemma recompute_comps (st : Store) (maxIter : ℕ) (tol now : ℚ) :
    (recompute_all_scores st maxIter tol now).2.comps = st.comps := by
  rw [recompute_all_scores]
  split <;> rfl

lemma recompute_isSome (st : Store) (maxIter : ℕ) (tol now : ℚ) (id : String) :
    (findScore (recompute_all_scores st maxIter tol now).2 id).isSome =
      (findScore st id).isSome := by
  rw [recompute_all_scores]
  split
  · rfl
  · apply findScore_map_isSome
    intro r
    rcases dictFind _ r.candidate_id with _ | s <;> simp

/-- After a successful (valid-winner) `record_comparison`, the pair exists. -/
lemma record_exists_after (st : Store) (a b w r : String) (maxIter : ℕ) (tol now : ℚ)
    (hcond : (w != "a" && w != "b" && w != "tie") = false) :
    comparison_exists (record_comparison st a b w r maxIter tol now).2 a b = true := by
  rw [record_comparison, hcond]
  simp only [Bool.false_eq_true, if_false]
  by_cases hex : comparison_exists st a b
  · simp only [hex, if_true]
    rw [comparison_exists_congr _ st]
    · exact hex
    · rw [get_score_comps, get_score_comps]
  · simp only [hex, Bool.false_eq_true, if_false]
    rw [comparison_exists_map]
    · rw [comparison_exists_congr _
        (store_comparison (update_candidate (update_candidate (get_score (get_score st a now).2 b now).2 a w "a" now) b w "b" now) a b w
          (get_score st a now).1 (get_score (get_score st a now).2 b now).1
          (get_score st a now).1 (get_score (get_score st a now).2 b now).1 r now)]
      · exact comparison_exists_store_self _ a b w _ _ _ _ r now
      · exact recompute_comps _ maxIter tol now
    · intro c
      by_cases h : c.candidate_a == a && c.candidate_b == b <;> simp [h]

/-- After a successful `record_comparison`, both candidates have rows. -/
lemma record_isSome_after (st : Store) (a b w r : String) (maxIter : ℕ) (tol now : ℚ)
    (hcond : (w != "a" && w != "b" && w != "tie") = false) :
    (findScore (record_comparison st a b w r maxIter tol now).2 a).isSome = true ∧
    (findScore (record_comparison st a b w r maxIter tol now).2 b).isSome = true := by
  rw [record_comparison, hcond]
  simp only [Bool.false_eq_true, if_false]
  have base : (findScore (get_score (get_score st a now).2 b now).2 a).isSome = true ∧
      (findScore (get_score (get_score st a now).2 b now).2 b).isSome = true :=
    ⟨get_score_isSome_mono _ b a now (get_score_isSome_self st a now),
     get_score_isSome_self _ b now⟩
  by_cases hex : comparison_exists st a b
  · simp only [hex, if_true]
    exact base
  · simp only [hex, Bool.false_eq_true, if_false]
    constructor <;>
    · rw [findScore_set_comps, recompute_isSome, findScore_store_comparison,
        update_candidate_isSome, update_candidate_isSome]
      first
        | exact base.1
        | exact base.2

end BTMM

namespace ELO

lemma findScore_insert_comparison (st : Store) (row : CompRow) (id : String) :
    findScore (insert_comparison st row) id = findScore st id := rfl

lemma update_stats_isSome (st : Store) (cid : String) (sc : ℚ) (dw dl dt : ℕ)
    (now : ℚ) (id : String) :
    (findScore (update_stats st cid sc dw dl dt now) id).isSome =
      (findScore st id).isSome := by
  apply findScore_map_isSome
  intro r
  by_cases h : r.candidate_id == cid <;> simp [h]

lemma get_elo_comps (initElo : ℚ) (st : Store) (id : String) (now : ℚ) :
    (get_elo initElo st id now).2.comps = st.comps := by
  rw [get_elo]
  rcases h : findScore st id with _ | r <;> simp

lemma get_elo_of_isSome (initElo : ℚ) (st : Store) (id : String) (now : ℚ)
    (h : (findScore st id).isSome = true) : (get_elo initElo st id now).2 = st := by
  rw [get_elo]
  rcases hf : findScore st id with _ | r
  · rw [hf] at h; simp at h
  · simp

lemma get_elo_isSome_self (initElo : ℚ) (st : Store) (id : String) (now : ℚ) :
    (findScore (get_elo initElo st id now).2 id).isSome = true := by
  rw [get_elo]
  rcases hf : findScore st id with _ | r
  · show (List.find? _ (st.scores ++ [_])).isSome = true
    rw [List.find?_append]
    have : List.find? (fun r : ScoreRow => r.candidate_id == id) st.scores = none := hf
    rw [this]
    simp
  · simp only
    rw [findScore] at hf
    rw [findScore, hf]
    rfl

lemma get_elo_isSome_mono (initElo : ℚ) (st : Store) (id id2 : String) (now : ℚ)
    (h : (findScore st id2).isSome = true) :
    (findScore (get_elo initElo st id now).2 id2).isSome = true := by
  rw [get_elo]
  rcases hf : findScore st id with _ | r
  · show (List.find? _ (st.scores ++ [_])).isSome = true
    rw [List.find?_append]
    rcases h2 : List.find? (fun r : ScoreRow => r.candidate_id == id2) st.scores with _ | r2
    · rw [findScore, h2] at h; simp at h
    · simp
  · exact h

/-- After a successful (valid-winner) ELO `record_comparison`, the pair
exists. -/
lemma elo_record_exists_after (k initElo : ℚ) (exp10 : ℚ → ℚ) (st : Store)
    (a b w r : String) (now : ℚ)
    (hcond : (w != "a" && w != "b" && w != "tie") = false) :
    comparison_exists (record_comparison k initElo exp10 st a b w r now).2 a b = true := by
  rw [record_comparison, hcond]
  simp only [Bool.false_eq_true, if_false]
  by_cases hex : comparison_exists st a b
  · simp only [hex, if_true]
    rw [comparison_exists_congr _ st]
    · exact hex
    · rw [get_elo_comps, get_elo_comps]
  · simp only [hex, Bool.false_eq_true, if_false]
    exact comparison_exists_append_self _ _ a b (by simp [rowMatches])

/-- After a successful ELO `record_comparison`, both candidates have rows. -/
lemma elo_record_isSome_after (k initElo : ℚ) (exp10 : ℚ → ℚ) (st : Store)
    (a b w r : String) (now : ℚ)
    (hcond : (w != "a" && w != "b" && w != "tie") = false) :
    (findScore (record_comparison k initElo exp10 st a b w r now).2 a).isSome = true ∧
    (findScore (record_comparison k initElo exp10 st a b w r now).2 b).isSome = true := by
  rw [record_comparison, hcond]
  simp only [Bool.false_eq_true, if_false]
  have base : (findScore (get_elo initElo (get_elo initElo st a now).2 b now).2 a).isSome = true ∧
      (findScore (get_elo initElo (get_elo initElo st a now).2 b now).2 b).isSome = true :=
    ⟨get_elo_isSome_mono initElo _ b a now (get_elo_isSome_self initElo st a now),
     get_elo_isSome_self initElo _ b now⟩
  by_cases hex : comparison_exists st a b
  · simp only [hex, if_true]
    exact base
  · simp only [hex, Bool.false_eq_true, if_false]
    constructor <;>
    · rw [findScore_insert_comparison, update_stats_isSome, update_stats_isSome]
      first
        | exact base.1
        | exact base.2

end ELO

/-- **C1** — Record idempotence: for every starting store, every pair of
candidate ids and every pair of valid winners `w1 ≠ w2`, calling
`record_comparison(a, b, w1)` and then `record_comparison(a, b, w2)` leaves
both engines' stores (comparison rows, win/loss/tie counters, comparison
counts, scores and timestamps alike) exactly as after the single first
call: the second call inserts no row and changes no counter or score. -/
theorem record_idempotence (st : Store) (a b w1 w2 r1 r2 : String) (n1 n2 : ℚ)
    (maxIter : ℕ) (tol k initElo : ℚ) (exp10 : ℚ → ℚ)
    (h1 : w1 = "a" ∨ w1 = "b" ∨ w1 = "tie")
    (h2 : w2 = "a" ∨ w2 = "b" ∨ w2 = "tie")
    (hne : w2 ≠ w1) :
    (BTMM.record_comparison (BTMM.record_comparison st a b w1 r1 maxIter tol n1).2
        a b w2 r2 maxIter tol n2).2 =
      (BTMM.record_comparison st a b w1 r1 maxIter tol n1).2 ∧
    (ELO.record_comparison k initElo exp10
        (ELO.record_comparison k initElo exp10 st a b w1 r1 n1).2 a b w2 r2 n2).2 =
      (ELO.record_comparison k initElo exp10 st a b w1 r1 n1).2 := by
  have hcond1 : (w1 != "a" && w1 != "b" && w1 != "tie") = false := by
    rcases h1 with h | h | h <;> subst h <;> rfl
  have hcond2 : (w2 != "a" && w2 != "b" && w2 != "tie") = false := by
    rcases h2 with h | h | h <;> subst h <;> rfl
  constructor
  · rw [BTMM.record_comparison, hcond2]
    simp only [Bool.false_eq_true, if_false,
      BTMM.record_exists_after st a b w1 r1 maxIter tol n1 hcond1, if_true]
    rw [BTMM.get_score_of_isSome _ a n2
        (BTMM.record_isSome_after st a b w1 r1 maxIter tol n1 hcond1).1,
      BTMM.get_score_of_isSome _ b n2
        (BTMM.record_isSome_after st a b w1 r1 maxIter tol n1 hcond1).2]
  · rw [ELO.record_comparison, hcond2]
    simp only [Bool.false_eq_true, if_false,
      ELO.elo_record_exists_after k initElo exp10 st a b w1 r1 n1 hcond1, if_true]
    rw [ELO.get_elo_of_isSome initElo _ a n2
        (ELO.elo_record_isSome_after k initElo exp10 st a b w1 r1 n1 hcond1).1,
      ELO.get_elo_of_isSome initElo _ b n2
        (ELO.elo_record_isSome_after k initElo exp10 st a b w1 r1 n1 hcond1).2]

/-- **C1 witness**: re-recording `(p1, p2)` with the opposite winner right
after the first recording, from a fresh store. -/
theorem record_idempotence_witness :
    (BTMM.record_comparison (BTMM.record_comparison emptyStore "p1" "p2" "a" "" 100 (1/10^6) 1).2
        "p1" "p2" "b" "" 100 (1/10^6) 2).2 =
      (BTMM.record_comparison emptyStore "p1" "p2" "a" "" 100 (1/10^6) 1).2 ∧
    (ELO.record_comparison 32 1500 (fun _ => 1)
        (ELO.record_comparison 32 1500 (fun _ => 1) emptyStore "p1" "p2" "a" "" 1).2
        "p1" "p2" "b" "" 2).2 =
      (ELO.record_comparison 32 1500 (fun _ => 1) emptyStore "p1" "p2" "a" "" 1).2 :=
  record_idempotence emptyStore "p1" "p2" "a" "b" "" "" 1 2 100 (1/10^6) 32 1500 (fun _ => 1)
    (Or.inl rfl) (Or.inr (Or.inl rfl)) (by decide)

/-! ### C9 development -/

/-- Internal strengthening of `counterInv` that is preserved by every call:
counters consistent, candidate ids unique, and every comparison row's
candidates present in the score table. -/
def storeInvAux (st : Store) : Prop :=
  counterInv st ∧
  (st.scores.map (fun r => r.candidate_id)).Nodup ∧
  ∀ c ∈ st.comps, (findScore st c.candidate_a).isSome = true ∧
    (findScore st c.candidate_b).isSome = true

lemma findScore_isSome_iff (st : Store) (id : String) :
    (findScore st id).isSome = true ↔
      id ∈ st.scores.map (fun r => r.candidate_id) := by
  rw [findScore]
  rw [show (st.scores.find? (fun r => r.candidate_id == id)).isSome = true ↔
      ∃ x, x ∈ st.scores ∧ (x.candidate_id == id) = true from List.find?_isSome]
  constructor
  · rintro ⟨r, hr, he⟩
    rw [beq_iff_eq] at he
    exact he ▸ List.mem_map_of_mem _ hr
  · intro h
    rcases List.mem_map.mp h with ⟨r, hr, he⟩
    exact ⟨r, hr, by rw [he]; simp⟩

lemma countMentions_set_scores (st : Store) (l : List ScoreRow) (id : String) :
    countMentions { st with scores := l } id = countMentions st id := rfl

lemma countMentions_append_row (st : Store) (row : CompRow) (id : String) :
    countMentions { st with comps := st.comps ++ [row] } id =
      countMentions st id + (if mentionsRow row id then 1 else 0) := by
  show (List.filter _ (st.comps ++ [row])).length = _
  rw [List.filter_append, List.length_append]
  congr 1
  by_cases h : mentionsRow row id <;> simp [List.filter, h]

lemma countMentions_map (st : Store) (g : CompRow → CompRow)
    (hg : ∀ c, (g c).candidate_a = c.candidate_a ∧ (g c).candidate_b = c.candidate_b)
    (id : String) :
    countMentions { st with comps := st.comps.map g } id = countMentions st id := by
  show (List.filter _ (st.comps.map g)).length = _
  rw [List.filter_map]
  rw [List.length_map]
  congr 1
  apply List.filter_congr
  intro c _
  simp [Function.comp, mentionsRow, (hg c).1, (hg c).2]

/-- The empty store satisfies the invariant. -/
lemma storeInvAux_empty : storeInvAux emptyStore := by
  refine ⟨?_, ?_, ?_⟩ <;> simp [counterInv, emptyStore]

/-- Appending a fresh zero-counter row preserves the invariant. -/
lemma storeInvAux_append_new (st : Store) (id : String) (s0 c0 u0 : ℚ)
    (hnone : findScore st id = none) (hinv : storeInvAux st) :
    storeInvAux { st with scores := st.scores ++ [⟨id, s0, 0, 0, 0, 0, c0, u0⟩] } := by
  obtain ⟨hcnt, hnd, hmem⟩ := hinv
  have hidnot : id ∉ st.scores.map (fun r => r.candidate_id) := by
    intro hmemid
    have := (findScore_isSome_iff st id).mpr hmemid
    rw [hnone] at this
    simp at this
  refine ⟨?_, ?_, ?_⟩
  · intro r hr
    rw [List.mem_append] at hr
    rcases hr with hr | hr
    · have := hcnt r hr
      exact ⟨this.1, this.2⟩
    · rw [List.mem_singleton] at hr
      subst hr
      refine ⟨rfl, ?_⟩
      show 0 = countMentions st id
      by_contra hne
      have hpos : 0 < (st.comps.filter (fun c => mentionsRow c id)).length := by
        rcases Nat.eq_zero_or_pos (st.comps.filter (fun c => mentionsRow c id)).length with h | h
        · exact absurd h.symm hne
        · exact h
      rw [List.length_pos] at hpos
      rcases List.exists_mem_of_ne_nil _ hpos with ⟨c, hc⟩
      rw [List.mem_filter] at hc
      have hc2 := hc.2
      rw [mentionsRow, Bool.or_eq_true] at hc2
      rcases hc2 with h | h
      · rw [beq_iff_eq] at h
        have := (hmem c hc.1).1
        rw [h, hnone] at this
        simp at this
      · rw [beq_iff_eq] at h
        have := (hmem c hc.1).2
        rw [h, hnone] at this
        simp at this
  · rw [List.map_append]
    simp only [List.map_cons, List.map_nil]
    have hperm : ((st.scores.map (fun r => r.candidate_id)) ++ [id]).Perm
        (id :: st.scores.map (fun r => r.candidate_id)) :=
      List.perm_append_singleton _ _
    rw [hperm.nodup_iff, List.nodup_cons]
    exact ⟨hidnot, hnd⟩
  · intro c hc
    have h := hmem c hc
    constructor
    · show (List.find? _ (st.scores ++ _)).isSome = true
      rw [List.find?_append]
      rcases hfa : List.find? (fun r : ScoreRow => r.candidate_id == c.candidate_a) st.scores with _ | r2
      · have := h.1
        rw [findScore, hfa] at this
        simp at this
      · simp
    · show (List.find? _ (st.scores ++ _)).isSome = true
      rw [List.find?_append]
      rcases hfb : List.find? (fun r : ScoreRow => r.candidate_id == c.candidate_b) st.scores with _ | r2
      · have := h.2
        rw [findScore, hfb] at this
        simp at this
      · simp

/-- Score rewrites preserving id and counters preserve the invariant. -/
lemma storeInvAux_scores_map (st : Store) (f : ScoreRow → ScoreRow)
    (hid : ∀ r, (f r).candidate_id = r.candidate_id)
    (hcnt : ∀ r, (f r).num_comparisons = r.num_comparisons ∧ (f r).wins = r.wins ∧
      (f r).losses = r.losses ∧ (f r).ties = r.ties)
    (hinv : storeInvAux st) :
    storeInvAux { st with scores := st.scores.map f } := by
  obtain ⟨hc, hnd, hmem⟩ := hinv
  refine ⟨?_, ?_, ?_⟩
  · intro r hr
    rcases List.mem_map.mp hr with ⟨r0, hr0, he⟩
    subst he
    have h0 := hc r0 hr0
    obtain ⟨h1, h2, h3, h4⟩ := hcnt r0
    rw [h1, h2, h3, h4, hid r0]
    exact ⟨h0.1, h0.2⟩
  · rw [List.map_map]
    have : ((fun r : ScoreRow => r.candidate_id) ∘ f) =
        (fun r : ScoreRow => r.candidate_id) := by
      funext r
      exact hid r
    rw [this]
    exact hnd
  · intro c hc2
    have h := hmem c hc2
    rw [findScore_map_isSome st f hid, findScore_map_isSome st f hid]
    exact h

/-- Comparison rewrites preserving the candidate pair preserve the
invariant. -/
lemma storeInvAux_comps_map (st : Store) (g : CompRow → CompRow)
    (hg : ∀ c, (g c).candidate_a = c.candidate_a ∧ (g c).candidate_b = c.candidate_b)
    (hinv : storeInvAux st) :
    storeInvAux { st with comps := st.comps.map g } := by
  obtain ⟨hc, hnd, hmem⟩ := hinv
  refine ⟨?_, hnd, ?_⟩
  · intro r hr
    have h0 := hc r hr
    rw [countMentions_map st g hg]
    exact ⟨h0.1, h0.2⟩
  · intro c hc2
    rcases List.mem_map.mp hc2 with ⟨c0, hc0, he⟩
    subst he
    rw [(hg c0).1, (hg c0).2]
    exact hmem c0 hc0

lemma find?_id_map_isSome (S : List ScoreRow) (f : ScoreRow → ScoreRow)
    (hf : ∀ r, (f r).candidate_id = r.candidate_id) (id : String) :
    ((S.map f).find? (fun r => r.candidate_id == id)).isSome =
      (S.find? (fun r => r.candidate_id == id)).isSome := by
  rw [List.find?_map]
  have : ((fun r : ScoreRow => r.candidate_id == id) ∘ f) =
      (fun r : ScoreRow => r.candidate_id == id) := by
    funext r
    simp [Function.comp, hf r]
  rw [this]
  cases S.find? (fun r : ScoreRow => r.candidate_id == id) <;> rfl

/-- The core of a successful record: bump each side's counters once and
append one comparison row mentioning exactly the two (distinct) sides. -/
lemma storeInvAux_record_core (st : Store) (a b : String) (row : CompRow)
    (fA fB : ScoreRow → ScoreRow)
    (hab : a ≠ b)
    (hrow_a : row.candidate_a = a) (hrow_b : row.candidate_b = b)
    (hidA : ∀ r, (fA r).candidate_id = r.candidate_id)
    (hidB : ∀ r, (fB r).candidate_id = r.candidate_id)
    (hA_other : ∀ r, r.candidate_id ≠ a → fA r = r)
    (hB_other : ∀ r, r.candidate_id ≠ b → fB r = r)
    (hA_bump : ∀ r, r.candidate_id = a →
      (fA r).num_comparisons = r.num_comparisons + 1 ∧
      (fA r).wins + (fA r).losses + (fA r).ties = r.wins + r.losses + r.ties + 1)
    (hB_bump : ∀ r, r.candidate_id = b →
      (fB r).num_comparisons = r.num_comparisons + 1 ∧
      (fB r).wins + (fB r).losses + (fB r).ties = r.wins + r.losses + r.ties + 1)
    (hinv : storeInvAux st)
    (ha : (findScore st a).isSome = true) (hb : (findScore st b).isSome = true) :
    storeInvAux { scores := (st.scores.map fA).map fB, comps := st.comps ++ [row] } := by
  obtain ⟨hc, hnd, hmem⟩ := hinv
  have hcount : ∀ id : String,
      countMentions { scores := (st.scores.map fA).map fB, comps := st.comps ++ [row] } id =
        countMentions st id + (if mentionsRow row id then 1 else 0) := by
    intro id
    show (List.filter _ (st.comps ++ [row])).length = _
    rw [List.filter_append, List.length_append]
    congr 1
    by_cases h : mentionsRow row id <;> simp [List.filter, h]
  have hrowmem : ∀ id : String, id ≠ a → id ≠ b → mentionsRow row id = false := by
    intro id hia hib
    rw [mentionsRow, hrow_a, hrow_b]
    simp [Ne.symm hia, Ne.symm hib]
  have hrowa : mentionsRow row a = true := by
    rw [mentionsRow, hrow_a]
    simp
  have hrowb : mentionsRow row b = true := by
    rw [mentionsRow, hrow_b]
    simp
  refine ⟨?_, ?_, ?_⟩
  · intro r2 hr2
    rcases List.mem_map.mp hr2 with ⟨r1, hr1, he1⟩
    rcases List.mem_map.mp hr1 with ⟨r0, hr0, he0⟩
    subst he1
    subst he0
    have h0 := hc r0 hr0
    rw [hidB (fA r0), hidA r0, hcount r0.candidate_id]
    by_cases hia : r0.candidate_id = a
    · have hBskip : fB (fA r0) = fA r0 :=
        hB_other (fA r0) (by rw [hidA r0, hia]; exact hab)
      obtain ⟨hn, hs⟩ := hA_bump r0 hia
      rw [hBskip]
      refine ⟨by rw [hs, hn, h0.1], ?_⟩
      rw [hn, hia, hrowa, if_pos rfl]
      have h2 := h0.2
      rw [hia] at h2
      rw [h2]
    · by_cases hib : r0.candidate_id = b
      · have hAskip : fA r0 = r0 := hA_other r0 hia
        rw [hAskip]
        obtain ⟨hn, hs⟩ := hB_bump r0 hib
        refine ⟨by rw [hs, hn, h0.1], ?_⟩
        rw [hn, hib, hrowb, if_pos rfl]
        have h2 := h0.2
        rw [hib] at h2
        rw [h2]
      · rw [hA_other r0 hia, hB_other r0 hib]
        rw [hrowmem r0.candidate_id hia hib]
        refine ⟨h0.1, ?_⟩
        rw [if_neg (by simp), Nat.add_zero]
        exact h0.2
  · show (((st.scores.map fA).map fB).map (fun r => r.candidate_id)).Nodup
    rw [List.map_map, List.map_map]
    have heq : (((fun r : ScoreRow => r.candidate_id) ∘ fB) ∘ fA) =
        (fun r : ScoreRow => r.candidate_id) := by
      funext r
      simp [Function.comp, hidB (fA r), hidA r]
    rw [heq]
    exact hnd
  · intro c hc2
    rw [List.mem_append] at hc2
    have hfind : ∀ id : String,
        (findScore { scores := (st.scores.map fA).map fB, comps := st.comps ++ [row] } id).isSome =
          (findScore st id).isSome := by
      intro id
      show ((List.map fB (List.map fA st.scores)).find? _).isSome = _
      rw [find?_id_map_isSome _ fB hidB, find?_id_map_isSome _ fA hidA]
      rfl
    rcases hc2 with hc2 | hc2
    · have h := hmem c hc2
      rw [hfind, hfind]
      exact h
    · rw [List.mem_singleton] at hc2
      subst hc2
      rw [hfind, hfind, hrow_a, hrow_b]
      exact ⟨ha, hb⟩

lemma find?_id_map (S : List ScoreRow) (f : ScoreRow → ScoreRow)
    (hf : ∀ r, (f r).candidate_id = r.candidate_id) (id : String) :
    (S.map f).find? (fun r => r.candidate_id == id) =
      (S.find? (fun r => r.candidate_id == id)).map f := by
  rw [List.find?_map]
  have : ((fun r : ScoreRow => r.candidate_id == id) ∘ f) =
      (fun r : ScoreRow => r.candidate_id == id) := by
    funext r
    simp [Function.comp, hf r]
  rw [this]

namespace BTMM

lemma get_score_inv (st : Store) (id : String) (now : ℚ) (h : storeInvAux st) :
    storeInvAux (get_score st id now).2 := by
  rw [get_score]
  rcases hf : findScore st id with _ | r
  · exact storeInvAux_append_new st id 1 now now hf h
  · exact h

lemma recompute_inv (st : Store) (maxIter : ℕ) (tol now : ℚ) (h : storeInvAux st) :
    storeInvAux (recompute_all_scores st maxIter tol now).2 := by
  rw [recompute_all_scores]
  split
  · exact h
  · apply storeInvAux_scores_map _ _ _ _ h
    · intro r
      rcases dictFind _ r.candidate_id with _ | s <;> simp
    · intro r
      rcases dictFind _ r.candidate_id with _ | s <;> simp

lemma record_inv (st : Store) (a b w r : String) (maxIter : ℕ) (tol now : ℚ)
    (hab : a ≠ b) (h : storeInvAux st) :
    storeInvAux (record_comparison st a b w r maxIter tol now).2 := by
  rw [record_comparison]
  by_cases hcond : (w != "a" && w != "b" && w != "tie") = true
  · rw [if_pos hcond]
    exact h
  · rw [if_neg hcond]
    by_cases hex : comparison_exists st a b
    · simp only [hex, if_true]
      exact get_score_inv _ b now (get_score_inv st a now h)
    · simp only [hex, Bool.false_eq_true, if_false]
      have h2 : storeInvAux (get_score (get_score st a now).2 b now).2 :=
        get_score_inv _ b now (get_score_inv st a now h)
      have ha : (findScore (get_score (get_score st a now).2 b now).2 a).isSome = true :=
        get_score_isSome_mono _ b a now (get_score_isSome_self st a now)
      have hb : (findScore (get_score (get_score st a now).2 b now).2 b).isSome = true :=
        get_score_isSome_self _ b now
      apply storeInvAux_comps_map
      · intro c
        by_cases hc : c.candidate_a == a && c.candidate_b == b <;> simp [hc]
      · apply recompute_inv
        exact storeInvAux_record_core (get_score (get_score st a now).2 b now).2 a b
          ⟨a, b, w, (get_score st a now).1, (get_score (get_score st a now).2 b now).1,
           (get_score st a now).1, (get_score (get_score st a now).2 b now).1, r, now⟩
          (fun rr : ScoreRow => if rr.candidate_id == a then
            { rr with
              num_comparisons := rr.num_comparisons + 1,
              wins := rr.wins + (if w == "a" then 1 else 0),
              losses := rr.losses + (if w != "a" && w != "tie" then 1 else 0),
              ties := rr.ties + (if w == "tie" then 1 else 0),
              updated_at := now }
            else rr)
          (fun rr : ScoreRow => if rr.candidate_id == b then
            { rr with
              num_comparisons := rr.num_comparisons + 1,
              wins := rr.wins + (if w == "b" then 1 else 0),
              losses := rr.losses + (if w != "b" && w != "tie" then 1 else 0),
              ties := rr.ties + (if w == "tie" then 1 else 0),
              updated_at := now }
            else rr)
          hab rfl rfl
          (fun rr => by by_cases hc : rr.candidate_id == a <;> simp [hc])
          (fun rr => by by_cases hc : rr.candidate_id == b <;> simp [hc])
          (fun rr hc => by simp [hc])
          (fun rr hc => by simp [hc])
          (fun rr hc => by
            simp only [hc, beq_self_eq_true, if_true]
            refine ⟨by simp, ?_⟩
            by_cases hwa : w == "a"
            · have : w = "a" := by rwa [beq_iff_eq] at hwa
              subst this
              simp
              omega
            · by_cases hwt : w == "tie"
              · have : w = "tie" := by rwa [beq_iff_eq] at hwt
                subst this
                simp
                omega
              · simp only [hwa, hwt]
                simp only [bne, hwa, hwt]
                simp
                omega)
          (fun rr hc => by
            simp only [hc, beq_self_eq_true, if_true]
            refine ⟨by simp, ?_⟩
            by_cases hwb : w == "b"
            · have : w = "b" := by rwa [beq_iff_eq] at hwb
              subst this
              simp
              omega
            · by_cases hwt : w == "tie"
              · have : w = "tie" := by rwa [beq_iff_eq] at hwt
                subst this
                simp
                omega
              · simp only [hwb, hwt]
                simp only [bne, hwb, hwt]
                simp
                omega)
          h2 ha hb

end BTMM

namespace ELO

lemma get_elo_inv (initElo : ℚ) (st : Store) (id : String) (now : ℚ)
    (h : storeInvAux st) : storeInvAux (get_elo initElo st id now).2 := by
  rw [get_elo]
  rcases hf : findScore st id with _ | r
  · exact storeInvAux_append_new st id initElo now now hf h
  · exact h

lemma elo_record_inv (k initElo : ℚ) (exp10 : ℚ → ℚ) (st : Store)
    (a b w r : String) (now : ℚ) (hab : a ≠ b) (h : storeInvAux st) :
    storeInvAux (record_comparison k initElo exp10 st a b w r now).2 := by
  rw [record_comparison]
  by_cases hcond : (w != "a" && w != "b" && w != "tie") = true
  · rw [if_pos hcond]
    exact h
  · rw [if_neg hcond]
    have hval : w = "a" ∨ w = "b" ∨ w = "tie" := by
      simp only [Bool.and_eq_true, bne_iff_ne, ne_eq, not_and, not_not] at hcond
      by_cases h1 : w = "a"
      · exact Or.inl h1
      · by_cases h2 : w = "b"
        · exact Or.inr (Or.inl h2)
        · exact Or.inr (Or.inr (hcond ⟨h1, h2⟩))
    by_cases hex : comparison_exists st a b
    · simp only [hex, if_true]
      exact get_elo_inv initElo _ b now (get_elo_inv initElo st a now h)
    · simp only [hex, Bool.false_eq_true, if_false]
      have h2 : storeInvAux (get_elo initElo (get_elo initElo st a now).2 b now).2 :=
        get_elo_inv initElo _ b now (get_elo_inv initElo st a now h)
      have ha : (findScore (get_elo initElo (get_elo initElo st a now).2 b now).2 a).isSome
          = true :=
        get_elo_isSome_mono initElo _ b a now (get_elo_isSome_self initElo st a now)
      have hb : (findScore (get_elo initElo (get_elo initElo st a now).2 b now).2 b).isSome
          = true :=
        get_elo_isSome_self initElo _ b now
      exact storeInvAux_record_core (get_elo initElo (get_elo initElo st a now).2 b now).2 a b
        ⟨a, b, w, (get_elo initElo st a now).1,
         (get_elo initElo (get_elo initElo st a now).2 b now).1,
         (get_elo initElo st a now).1 + k *
           ((if w == "a" then 1 else if w == "tie" then 1 / 2 else 0) -
            1 / (1 + exp10 (((get_elo initElo (get_elo initElo st a now).2 b now).1 -
              (get_elo initElo st a now).1) / 400))),
         (get_elo initElo (get_elo initElo st a now).2 b now).1 + k *
           ((1 - (if w == "a" then 1 else if w == "tie" then 1 / 2 else 0)) -
            (1 - 1 / (1 + exp10 (((get_elo initElo (get_elo initElo st a now).2 b now).1 -
              (get_elo initElo st a now).1) / 400)))),
         r, now⟩
        (fun rr : ScoreRow => if rr.candidate_id == a then
          { rr with
            score := (get_elo initElo st a now).1 + k *
              ((if w == "a" then 1 else if w == "tie" then 1 / 2 else 0) -
               1 / (1 + exp10 (((get_elo initElo (get_elo initElo st a now).2 b now).1 -
                 (get_elo initElo st a now).1) / 400))),
            num_comparisons := rr.num_comparisons + 1,
            wins := rr.wins + (if w == "a" then 1 else 0),
            losses := rr.losses + (if w == "b" then 1 else 0),
            ties := rr.ties + (if w == "tie" then 1 else 0),
            updated_at := now }
          else rr)
        (fun rr : ScoreRow => if rr.candidate_id == b then
          { rr with
            score := (get_elo initElo (get_elo initElo st a now).2 b now).1 + k *
              ((1 - (if w == "a" then 1 else if w == "tie" then 1 / 2 else 0)) -
               (1 - 1 / (1 + exp10 (((get_elo initElo (get_elo initElo st a now).2 b now).1 -
                 (get_elo initElo st a now).1) / 400)))),
            num_comparisons := rr.num_comparisons + 1,
            wins := rr.wins + (if w == "b" then 1 else 0),
            losses := rr.losses + (if w == "a" then 1 else 0),
            ties := rr.ties + (if w == "tie" then 1 else 0),
            updated_at := now }
          else rr)
        hab rfl rfl
        (fun rr => by by_cases hc : rr.candidate_id == a <;> simp [hc])
        (fun rr => by by_cases hc : rr.candidate_id == b <;> simp [hc])
        (fun rr hc => by simp [hc])
        (fun rr hc => by simp [hc])
        (fun rr hc => by
          simp only [hc, beq_self_eq_true, if_true]
          refine ⟨by simp, ?_⟩
          rcases hval with hv | hv | hv <;> subst hv <;> simp <;> omega)
        (fun rr hc => by
          simp only [hc, beq_self_eq_true, if_true]
          refine ⟨by simp, ?_⟩
          rcases hval with hv | hv | hv <;> subst hv <;> simp <;> omega)
        h2 ha hb

end ELO

def ctrs (r : ScoreRow) : ℕ × ℕ × ℕ × ℕ :=
  (r.num_comparisons, r.wins, r.losses, r.ties)

def bumpCtrs (dw dl dt : ℕ) (r : ScoreRow) : ℕ × ℕ × ℕ × ℕ :=
  (r.num_comparisons + 1, r.wins + dw, r.losses + dl, r.ties + dt)

namespace BTMM

lemma findScore_update_candidate (st : Store) (cid w p : String) (now : ℚ) (id : String) :
    findScore (update_candidate st cid w p now) id =
      (findScore st id).map (fun r =>
        if r.candidate_id == cid then
          { r with
            num_comparisons := r.num_comparisons + 1,
            wins := r.wins + (if w == p then 1 else 0),
            losses := r.losses + (if w != p && w != "tie" then 1 else 0),
            ties := r.ties + (if w == "tie" then 1 else 0),
            updated_at := now }
        else r) := by
  rw [update_candidate, findScore, findScore]
  apply find?_id_map
  intro r
  by_cases hc : r.candidate_id == cid <;> simp [hc]

lemma recompute_ctrs (st : Store) (maxIter : ℕ) (tol now : ℚ) (id : String) :
    (findScore (recompute_all_scores st maxIter tol now).2 id).map ctrs =
      (findScore st id).map ctrs := by
  rw [recompute_all_scores]
  split
  · rfl
  · show (findScore { st with scores := st.scores.map _ } id).map ctrs = _
    rw [findScore, findScore, find?_id_map]
    · cases hf : st.scores.find? (fun r => r.candidate_id == id) with
      | none => rfl
      | some r =>
        show some (ctrs _) = some (ctrs r)
        cases hd : dictFind (compute_bt_mm (st.scores.map (fun r => r.candidate_id))
            (st.comps.map (fun c => (c.candidate_a, c.candidate_b, winnerScore c.winner)))
            maxIter tol) r.candidate_id <;>
          simp [hd, ctrs]
    · intro r
      cases hd : dictFind (compute_bt_mm (st.scores.map (fun r => r.candidate_id))
          (st.comps.map (fun c => (c.candidate_a, c.candidate_b, winnerScore c.winner)))
          maxIter tol) r.candidate_id <;>
        simp [hd]

end BTMM

namespace ELO

lemma findScore_update_stats (st : Store) (cid : String) (sc : ℚ) (dw dl dt : ℕ)
    (now : ℚ) (id : String) :
    findScore (update_stats st cid sc dw dl dt now) id =
      (findScore st id).map (fun r =>
        if r.candidate_id == cid then
          { r with
            score := sc,
            num_comparisons := r.num_comparisons + 1,
            wins := r.wins + dw,
            losses := r.losses + dl,
            ties := r.ties + dt,
            updated_at := now }
        else r) := by
  rw [update_stats, findScore, findScore]
  apply find?_id_map
  intro r
  by_cases hc : r.candidate_id == cid <;> simp [hc]

end ELO

namespace BTMM

lemma record_increments (st : Store) (a b w r : String) (maxIter : ℕ) (tol now : ℚ)
    (hab : a ≠ b)
    (hw : (w != "a" && w != "b" && w != "tie") = false)
    (hex : comparison_exists st a b = false) :
    (findScore (record_comparison st a b w r maxIter tol now).2 a).map ctrs =
      (findScore (get_score (get_score st a now).2 b now).2 a).map
        (bumpCtrs (if w == "a" then 1 else 0) (if w != "a" && w != "tie" then 1 else 0)
          (if w == "tie" then 1 else 0)) ∧
    (findScore (record_comparison st a b w r maxIter tol now).2 b).map ctrs =
      (findScore (get_score (get_score st a now).2 b now).2 b).map
        (bumpCtrs (if w == "b" then 1 else 0) (if w != "b" && w != "tie" then 1 else 0)
          (if w == "tie" then 1 else 0)) := by
  rw [record_comparison]
  simp only [hw, Bool.false_eq_true, if_false, hex]
  constructor
  · rw [findScore_set_comps, recompute_ctrs, findScore_store_comparison,
      findScore_update_candidate, findScore_update_candidate]
    rw [Option.map_map, Option.map_map]
    cases hf : findScore (get_score (get_score st a now).2 b now).2 a with
    | none => rfl
    | some r0 =>
      have hid : r0.candidate_id = a := by
        have := List.find?_some hf
        rwa [beq_iff_eq] at this
      show some _ = some _
      simp [hid, hab, ctrs, bumpCtrs]
  · rw [findScore_set_comps, recompute_ctrs, findScore_store_comparison,
      findScore_update_candidate, findScore_update_candidate]
    rw [Option.map_map, Option.map_map]
    cases hf : findScore (get_score (get_score st a now).2 b now).2 b with
    | none => rfl
    | some r0 =>
      have hid : r0.candidate_id = b := by
        have := List.find?_some hf
        rwa [beq_iff_eq] at this
      have hba : ¬ (b = a) := fun hh => hab hh.symm
      show some _ = some _
      simp [hid, hba, ctrs, bumpCtrs]

end BTMM

namespace ELO

lemma elo_record_increments (k initElo : ℚ) (exp10 : ℚ → ℚ) (st : Store)
    (a b w r : String) (now : ℚ) (hab : a ≠ b)
    (hw : (w != "a" && w != "b" && w != "tie") = false)
    (hex : comparison_exists st a b = false) :
    (findScore (record_comparison k initElo exp10 st a b w r now).2 a).map ctrs =
      (findScore (get_elo initElo (get_elo initElo st a now).2 b now).2 a).map
        (bumpCtrs (if w == "a" then 1 else 0) (if w == "b" then 1 else 0)
          (if w == "tie" then 1 else 0)) ∧
    (findScore (record_comparison k initElo exp10 st a b w r now).2 b).map ctrs =
      (findScore (get_elo initElo (get_elo initElo st a now).2 b now).2 b).map
        (bumpCtrs (if w == "b" then 1 else 0) (if w == "a" then 1 else 0)
          (if w == "tie" then 1 else 0)) := by
  rw [record_comparison]
  simp only [hw, Bool.false_eq_true, if_false, hex]
  constructor
  · rw [findScore_insert_comparison, findScore_update_stats, findScore_update_stats]
    rw [Option.map_map, Option.map_map]
    cases hf : findScore (get_elo initElo (get_elo initElo st a now).2 b now).2 a with
    | none => rfl
    | some r0 =>
      have hid : r0.candidate_id = a := by
        have := List.find?_some hf
        rwa [beq_iff_eq] at this
      show some _ = some _
      simp [hid, hab, ctrs, bumpCtrs]
  · rw [findScore_insert_comparison, findScore_update_stats, findScore_update_stats]
    rw [Option.map_map, Option.map_map]
    cases hf : findScore (get_elo initElo (get_elo initElo st a now).2 b now).2 b with
    | none => rfl
    | some r0 =>
      have hid : r0.candidate_id = b := by
        have := List.find?_some hf
        rwa [beq_iff_eq] at this
      have hba : ¬ (b = a) := fun hh => hab hh.symm
      show some _ = some _
      simp [hid, hba, ctrs, bumpCtrs]

end ELO

namespace BTMM

lemma foldl_inv (maxIter : ℕ) (tol : ℚ) (ops : List StoreOp) :
    ∀ st : Store, storeInvAux st → (∀ op ∈ ops, opDistinct op = true) →
      storeInvAux (ops.foldl (runOp maxIter tol) st) := by
  induction ops with
  | nil => intro st h _; exact h
  | cons op rest ih =>
    intro st h hops
    rw [List.foldl_cons]
    have hop := hops op (List.mem_cons_self op rest)
    apply ih
    · cases op with
      | getScore id now => exact get_score_inv st id now h
      | record a b w r now =>
        have hd : a ≠ b := by
          rw [opDistinct] at hop
          rwa [bne_iff_ne] at hop
        exact record_inv st a b w r maxIter tol now hd h
    · intro o ho
      exact hops o (List.mem_cons_of_mem op ho)

end BTMM

namespace ELO

lemma elo_foldl_inv (k initElo : ℚ) (exp10 : ℚ → ℚ) (ops : List StoreOp) :
    ∀ st : Store, storeInvAux st → (∀ op ∈ ops, opDistinct op = true) →
      storeInvAux (ops.foldl (runOp k initElo exp10) st) := by
  induction ops with
  | nil => intro st h _; exact h
  | cons op rest ih =>
    intro st h hops
    rw [List.foldl_cons]
    have hop := hops op (List.mem_cons_self op rest)
    apply ih
    · cases op with
      | getScore id now => exact get_elo_inv initElo st id now h
      | record a b w r now =>
        have hd : a ≠ b := by
          rw [opDistinct] at hop
          rwa [bne_iff_ne] at hop
        exact elo_record_inv k initElo exp10 st a b w r now hd h
    · intro o ho
      exact hops o (List.mem_cons_of_mem op ho)

end ELO

/-- **C9** (amended: operation sequences restricted to distinct-pair
records).  Starting from an empty store, after any sequence of score reads
and distinct-pair record calls both engines satisfy the counter-consistency
invariant: every candidate row has `wins + losses + ties = num_comparisons`
and `num_comparisons` equal to the number of stored comparison rows
mentioning that candidate.  Moreover every successfully recorded comparison
(valid winner, unrecorded distinct pair) bumps, on each of the two
candidates' rows, `num_comparisons` by exactly `1` and exactly one of
`wins`/`losses`/`ties` by exactly `1` (relative to the store in which both
rows have been ensured to exist by the two score reads the call performs);
the original claim fails for self-pair records, see the counterexample. -/
theorem counter_consistency (maxIter : ℕ) (tol k initElo : ℚ) (exp10 : ℚ → ℚ)
    (ops : List StoreOp) (hops : ∀ op ∈ ops, opDistinct op = true)
    (st : Store) (a b w r : String) (now : ℚ) (hab : a ≠ b)
    (hw : (w != "a" && w != "b" && w != "tie") = false)
    (hex : comparison_exists st a b = false) :
    (counterInv (BTMM.runOps maxIter tol ops) ∧
     counterInv (ELO.runOps k initElo exp10 ops)) ∧
    (∀ id ∈ [a, b], ∃ dw dl dt : ℕ, dw + dl + dt = 1 ∧
      (findScore (BTMM.record_comparison st a b w r maxIter tol now).2 id).map ctrs =
        (findScore (BTMM.get_score (BTMM.get_score st a now).2 b now).2 id).map
          (bumpCtrs dw dl dt)) ∧
    (∀ id ∈ [a, b], ∃ dw dl dt : ℕ, dw + dl + dt = 1 ∧
      (findScore (ELO.record_comparison k initElo exp10 st a b w r now).2 id).map ctrs =
        (findScore (ELO.get_elo initElo (ELO.get_elo initElo st a now).2 b now).2 id).map
          (bumpCtrs dw dl dt)) := by
  have hval : w = "a" ∨ w = "b" ∨ w = "tie" := by
    simp only [Bool.and_eq_true, bne_iff_ne, ne_eq, not_and, not_not,
      Bool.and_eq_false_iff, bne_eq_false_iff_eq] at hw
    rcases hw with (h1 | h1) | h1
    · exact Or.inl h1
    · exact Or.inr (Or.inl h1)
    · exact Or.inr (Or.inr h1)
  refine ⟨⟨(BTMM.foldl_inv maxIter tol ops emptyStore storeInvAux_empty hops).1,
           (ELO.elo_foldl_inv k initElo exp10 ops emptyStore storeInvAux_empty hops).1⟩,
         ?_, ?_⟩
  · intro id hid
    rcases List.mem_pair.mp hid with hi | hi <;> subst hi
    · refine ⟨if w == "a" then 1 else 0, if w != "a" && w != "tie" then 1 else 0,
        if w == "tie" then 1 else 0, ?_,
        (BTMM.record_increments st id b w r maxIter tol now hab hw hex).1⟩
      rcases hval with hv | hv | hv <;> subst hv <;> decide
    · refine ⟨if w == "b" then 1 else 0, if w != "b" && w != "tie" then 1 else 0,
        if w == "tie" then 1 else 0, ?_,
        (BTMM.record_increments st a id w r maxIter tol now hab hw hex).2⟩
      rcases hval with hv | hv | hv <;> subst hv <;> decide
  · intro id hid
    rcases List.mem_pair.mp hid with hi | hi <;> subst hi
    · refine ⟨if w == "a" then 1 else 0, if w == "b" then 1 else 0,
        if w == "tie" then 1 else 0, ?_,
        (ELO.elo_record_increments k initElo exp10 st id b w r now hab hw hex).1⟩
      rcases hval with hv | hv | hv <;> subst hv <;> decide
    · refine ⟨if w == "b" then 1 else 0, if w == "a" then 1 else 0,
        if w == "tie" then 1 else 0, ?_,
        (ELO.elo_record_increments k initElo exp10 st a id w r now hab hw hex).2⟩
      rcases hval with hv | hv | hv <;> subst hv <;> decide

/-- Instantiation of `counter_consistency` at a concrete distinct-pair
operation sequence and a concrete valid record call. -/
theorem counter_consistency_witness :
    (∀ op ∈ [StoreOp.record "x" "y" "a" "" 0], opDistinct op = true) ∧
    ("p" : String) ≠ "q" ∧
    (("a" != "a" && "a" != "b" && "a" != "tie") = false) ∧
    comparison_exists emptyStore "p" "q" = false ∧
    ((counterInv (BTMM.runOps 100 (1 / 1000000) [StoreOp.record "x" "y" "a" "" 0]) ∧
      counterInv (ELO.runOps 32 1500 (fun _ => 1) [StoreOp.record "x" "y" "a" "" 0])) ∧
     (∀ id ∈ ["p", "q"], ∃ dw dl dt : ℕ, dw + dl + dt = 1 ∧
       (findScore (BTMM.record_comparison emptyStore "p" "q" "a" "" 100 (1 / 1000000) 0).2
           id).map ctrs =
         (findScore (BTMM.get_score (BTMM.get_score emptyStore "p" 0).2 "q" 0).2 id).map
           (bumpCtrs dw dl dt)) ∧
     (∀ id ∈ ["p", "q"], ∃ dw dl dt : ℕ, dw + dl + dt = 1 ∧
       (findScore (ELO.record_comparison 32 1500 (fun _ => 1) emptyStore "p" "q" "a" "" 0).2
           id).map ctrs =
         (findScore (ELO.get_elo 1500 (ELO.get_elo 1500 emptyStore "p" 0).2 "q" 0).2 id).map
           (bumpCtrs dw dl dt))) :=
  ⟨by decide, by decide, by decide, by decide,
   counter_consistency 100 (1 / 1000000) 32 1500 (fun _ => 1)
     [StoreOp.record "x" "y" "a" "" 0] (by decide) emptyStore "p" "q" "a" "" 0
     (by decide) (by decide) (by decide)⟩

lemma ce9_eq : ELO.runOps 32 1500 (fun _ => 1) [StoreOp.record "x" "x" "a" "" 0] =
    ⟨[⟨"x", 1484, 2, 1, 1, 0, 0, 0⟩], [⟨"x", "x", "a", 1500, 1500, 1516, 1484, "", 0⟩]⟩ := by
  rw [ELO.runOps, List.foldl_cons, List.foldl_nil, ELO.runOp, ELO.record_comparison]
  simp [comparison_exists, ELO.get_elo, findScore, emptyStore,
    ELO.update_stats, ELO.insert_comparison]
  norm_num

/-- **C9 counterexample** — the unrestricted claim fails for a self-pair:
`record_comparison("x", "x", "a")` on a fresh ELO store leaves the single
row `x` with `num_comparisons = 2` while only one stored comparison row
mentions `x`, so the counter-consistency invariant is violated. -/
theorem counter_consistency_counterexample :
    ¬ counterInv (ELO.runOps 32 1500 (fun _ => 1) [StoreOp.record "x" "x" "a" "" 0]) := by
  rw [ce9_eq, counterInv]
  intro h
  obtain ⟨h1, h2⟩ := h ⟨"x", 1484, 2, 1, 1, 0, 0, 0⟩ (by simp)
  rw [countMentions] at h2
  simp [mentionsRow] at h2

/-! ### C2 development -/

namespace BTMM

def ceM : ℕ := 10 ^ 11
def ceCands : List String := ["Z", "J", "T"]
def ceComps : List (String × String × ℚ) :=
  ("J", "Z", 1) :: ("T", "Z", 1) :: ("T", "J", 1/2) :: List.replicate ceM ("T", "J", 1)

lemma ceIdxZ : idxMap ceCands "Z" = 0 := rfl
lemma ceIdxJ : idxMap ceCands "J" = 1 := rfl
lemma ceIdxT : idxMap ceCands "T" = 2 := rfl

lemma ceWinsExpand (i : ℕ) : btWins ceCands ceComps i =
    btWinsContrib ceCands i ("J", "Z", 1) + btWinsContrib ceCands i ("T", "Z", 1) +
    btWinsContrib ceCands i ("T", "J", 1/2) + (ceM : ℚ) * btWinsContrib ceCands i ("T", "J", 1) := by
  rw [btWins, ceComps]
  rw [List.map_cons, List.map_cons, List.map_cons, List.map_replicate]
  rw [List.sum_cons, List.sum_cons, List.sum_cons, List.sum_replicate]
  push_cast [nsmul_eq_mul]
  ring

lemma ceWins0 : btWins ceCands ceComps 0 = 0 := by
  rw [ceWinsExpand]
  simp only [btWinsContrib, ceIdxZ, ceIdxJ, ceIdxT]
  norm_num

lemma ceWins1 : btWins ceCands ceComps 1 = 3/2 := by
  rw [ceWinsExpand]
  simp only [btWinsContrib, ceIdxZ, ceIdxJ, ceIdxT]
  norm_num

lemma ceWins2 : btWins ceCands ceComps 2 = (10^11 : ℚ) + 3/2 := by
  rw [ceWinsExpand]
  simp only [btWinsContrib, ceIdxZ, ceIdxJ, ceIdxT, ceM]
  norm_num

lemma ceCompMExpand (i j : ℕ) : btCompM ceCands ceComps i j =
    btCompMContrib ceCands i j ("J", "Z", 1) + btCompMContrib ceCands i j ("T", "Z", 1) +
    btCompMContrib ceCands i j ("T", "J", 1/2) +
    (ceM : ℚ) * btCompMContrib ceCands i j ("T", "J", 1) := by
  rw [btCompM, ceComps]
  rw [List.map_cons, List.map_cons, List.map_cons, List.map_replicate]
  rw [List.sum_cons, List.sum_cons, List.sum_cons, List.sum_replicate]
  push_cast [nsmul_eq_mul]
  ring

lemma ceCompM00 : btCompM ceCands ceComps 0 0 = 0 := by
  rw [ceCompMExpand]; simp only [btCompMContrib, ceIdxZ, ceIdxJ, ceIdxT]; norm_num

lemma ceCompM01 : btCompM ceCands ceComps 0 1 = 1 := by
  rw [ceCompMExpand]; simp only [btCompMContrib, ceIdxZ, ceIdxJ, ceIdxT]; norm_num

lemma ceCompM02 : btCompM ceCands ceComps 0 2 = 1 := by
  rw [ceCompMExpand]; simp only [btCompMContrib, ceIdxZ, ceIdxJ, ceIdxT]; norm_num

lemma ceCompM10 : btCompM ceCands ceComps 1 0 = 1 := by
  rw [ceCompMExpand]; simp only [btCompMContrib, ceIdxZ, ceIdxJ, ceIdxT]; norm_num

lemma ceCompM11 : btCompM ceCands ceComps 1 1 = 0 := by
  rw [ceCompMExpand]; simp only [btCompMContrib, ceIdxZ, ceIdxJ, ceIdxT]; norm_num

lemma ceCompM12 : btCompM ceCands ceComps 1 2 = (10^11 : ℚ) + 1 := by
  rw [ceCompMExpand]; simp only [btCompMContrib, ceIdxZ, ceIdxJ, ceIdxT, ceM]; norm_num

lemma ceCompM20 : btCompM ceCands ceComps 2 0 = 1 := by
  rw [ceCompMExpand]; simp only [btCompMContrib, ceIdxZ, ceIdxJ, ceIdxT]; norm_num

lemma ceCompM21 : btCompM ceCands ceComps 2 1 = (10^11 : ℚ) + 1 := by
  rw [ceCompMExpand]; simp only [btCompMContrib, ceIdxZ, ceIdxJ, ceIdxT, ceM]; norm_num

lemma ceCompM22 : btCompM ceCands ceComps 2 2 = 0 := by
  rw [ceCompMExpand]; simp only [btCompMContrib, ceIdxZ, ceIdxJ, ceIdxT]; norm_num

lemma sum_map_filter (l : List ℕ) (p : ℕ → Bool) (f : ℕ → ℚ) :
    ((l.filter p).map f).sum = (l.map (fun x => if p x then f x else 0)).sum := by
  induction l with
  | nil => rfl
  | cons a l ih =>
    rw [List.filter_cons]
    by_cases h : p a
    · simp [h, ih]
    · simp [h, ih]

lemma btDenom_eval (cands : List String) (comps : List (String × String × ℚ))
    (θ : List ℚ) (i : ℕ) :
    btDenom cands comps θ i =
      ((List.range θ.length).map (fun j =>
        if 0 < btCompM cands comps i j then
          btCompM cands comps i j / (θ.getD i 0 + θ.getD j 0) else 0)).sum := by
  rw [btDenom, sum_map_filter]
  congr 1
  apply List.map_congr_left
  intro j _
  by_cases h : 0 < btCompM cands comps i j <;> simp [h]

-- generic 3-element step expansion
lemma ceStepExpand (a b c : ℚ) : btStep ceCands ceComps [a, b, c] =
    [if btWins ceCands ceComps 0 = 0 then btFloor else
       (if 0 < btDenom ceCands ceComps [a,b,c] 0 then
         btWins ceCands ceComps 0 / btDenom ceCands ceComps [a,b,c] 0 else btFloor),
     if btWins ceCands ceComps 1 = 0 then btFloor else
       (if 0 < btDenom ceCands ceComps [a,b,c] 1 then
         btWins ceCands ceComps 1 / btDenom ceCands ceComps [a,b,c] 1 else btFloor),
     if btWins ceCands ceComps 2 = 0 then btFloor else
       (if 0 < btDenom ceCands ceComps [a,b,c] 2 then
         btWins ceCands ceComps 2 / btDenom ceCands ceComps [a,b,c] 2 else btFloor)] := by
  rw [btStep]
  rfl

lemma ceDenom1 (a b c : ℚ) : btDenom ceCands ceComps [a, b, c] 1 =
    1 / (b + a) + ((10^11 : ℚ) + 1) / (b + c) := by
  rw [btDenom_eval]
  simp only [show ([a,b,c]).length = 3 from rfl, show List.range 3 = [0,1,2] from rfl,
    List.map_cons, List.map_nil, List.sum_cons, List.sum_nil,
    ceCompM10, ceCompM11, ceCompM12]
  norm_num [List.getD]

lemma ceDenom2 (a b c : ℚ) : btDenom ceCands ceComps [a, b, c] 2 =
    1 / (c + a) + ((10^11 : ℚ) + 1) / (c + b) := by
  rw [btDenom_eval]
  simp only [show ([a,b,c]).length = 3 from rfl, show List.range 3 = [0,1,2] from rfl,
    List.map_cons, List.map_nil, List.sum_cons, List.sum_nil,
    ceCompM20, ceCompM21, ceCompM22]
  norm_num [List.getD]

lemma ceStep1 : btStep ceCands ceComps [1, 1, 1] =
    [btFloor, 1/33333333334, 200000000003/100000000002] := by
  rw [ceStepExpand, ceDenom1, ceDenom2, ceWins0, ceWins1, ceWins2]
  norm_num

lemma ceTheta2J : (3/2 : ℚ) /
    (1 / (1/33333333334 + btFloor) + ((10^11 : ℚ) + 1) / (1/33333333334 + 200000000003/100000000002)) =
    6500000000295000000003/250000000011500000000163333333334 := by
  rw [btFloor]
  norm_num

lemma ceStep2 : btStep ceCands ceComps [btFloor, 1/33333333334, 200000000003/100000000002] =
    [btFloor, 6500000000295000000003/250000000011500000000163333333334,
     20000000002200000000087500000001485000000009/10000000001050000000036500000000490000000002] := by
  rw [ceStepExpand, ceDenom1, ceDenom2, ceWins0, ceWins1, ceWins2, btFloor]
  norm_num

def ceTheta1 : List ℚ := [btFloor, 1/33333333334, 200000000003/100000000002]
def ceTheta2 : List ℚ := [btFloor, 6500000000295000000003/250000000011500000000163333333334,
     20000000002200000000087500000001485000000009/10000000001050000000036500000000490000000002]

lemma ceDiff1 : ¬ (maxAbsDiff ceTheta1 [1, 1, 1] < 1/10^6) := by
  simp only [ceTheta1, maxAbsDiff, List.zip_cons_cons, List.zip_nil_left, List.zip_nil_right,
    List.map_cons, List.map_nil, List.foldl_cons, List.foldl_nil, btFloor]
  intro h
  rw [max_lt_iff] at h
  have := h.2
  rw [abs_lt] at this
  norm_num at this

lemma ceDiff2 : maxAbsDiff ceTheta2 ceTheta1 < 1/10^6 := by
  simp only [ceTheta2, ceTheta1, maxAbsDiff, List.zip_cons_cons, List.zip_nil_left,
    List.zip_nil_right, List.map_cons, List.map_nil, List.foldl_cons, List.foldl_nil, btFloor]
  rw [max_lt_iff, max_lt_iff, max_lt_iff]
  refine ⟨⟨⟨by norm_num, by rw [abs_lt]; constructor <;> norm_num⟩,
    by rw [abs_lt]; constructor <;> norm_num⟩, by rw [abs_lt]; constructor <;> norm_num⟩

lemma ceLoop : btLoop ceCands ceComps (1/10^6) 100 [1, 1, 1] = ceTheta2 := by
  rw [show (100:ℕ) = 99 + 1 from rfl, btLoop]
  rw [show btStep ceCands ceComps [1,1,1] = ceTheta1 from ceStep1]
  rw [if_neg ceDiff1]
  rw [show (99:ℕ) = 98 + 1 from rfl, btLoop]
  rw [show btStep ceCands ceComps ceTheta1 = ceTheta2 by rw [ceTheta1, ceStep2, ceTheta2]]
  rw [if_pos ceDiff2]

lemma ceFinal : compute_bt_mm ceCands ceComps 100 (1/10^6) =
    [("Z", btFloor / ceTheta2.sum * 1000),
     ("J", (6500000000295000000003/250000000011500000000163333333334 : ℚ) / ceTheta2.sum * 1000),
     ("T", (20000000002200000000087500000001485000000009/10000000001050000000036500000000490000000002 : ℚ) / ceTheta2.sum * 1000)] := by
  rw [compute_bt_mm]
  simp only [show ceCands.isEmpty = false from rfl, Bool.false_eq_true, if_false,
    show ceCands.length = 3 from rfl]
  rw [show List.replicate 3 (1:ℚ) = [1,1,1] from rfl, ceLoop]
  rw [if_pos (by rw [ceTheta2, btFloor]; norm_num [List.sum_cons])]
  rw [show ceTheta2.map (fun t => t / ceTheta2.sum * 1000) =
    [btFloor / ceTheta2.sum * 1000,
     (6500000000295000000003/250000000011500000000163333333334 : ℚ) / ceTheta2.sum * 1000,
     (20000000002200000000087500000001485000000009/10000000001050000000036500000000490000000002 : ℚ) / ceTheta2.sum * 1000] by rw [ceTheta2]; rfl]
  rfl

-- the counterexample inequality: score of J strictly below score of Z
lemma ceJltZ : dictGet (compute_bt_mm ceCands ceComps 100 (1/10^6)) "J" 0 <
    dictGet (compute_bt_mm ceCands ceComps 100 (1/10^6)) "Z" 0 := by
  rw [ceFinal]
  simp [dictGet, dictFind]
  norm_num [ceTheta2, btFloor, List.sum_cons]

/-- **C2 counterexample** — the graph on `["Z","J","T"]` with one win of `J`
over `Z`, one win of `T` over `Z`, one tie between `T` and `J` and `10^11`
further wins of `T` over `J` is fully connected, `Z` has zero weighted wins
and `J` has `3/2 > 0`, yet `compute_bt_mm` (default `max_iter = 100`,
`tol = 1e-6`) scores `J` strictly BELOW the clamped `Z`: the "scores below
every candidate with at least a partial win" part of the claim is false. -/
theorem bt_monotonicity_counterexample :
    0 < btCompM ceCands ceComps 0 1 ∧ 0 < btCompM ceCands ceComps 0 2 ∧
    0 < btCompM ceCands ceComps 1 2 ∧
    btWins ceCands ceComps 0 = 0 ∧ 0 < btWins ceCands ceComps 1 ∧
    dictGet (compute_bt_mm ceCands ceComps 100 (1 / 10 ^ 6)) "J" 0 <
      dictGet (compute_bt_mm ceCands ceComps 100 (1 / 10 ^ 6)) "Z" 0 := by
  refine ⟨?_, ?_, ?_, ceWins0, ?_, ceJltZ⟩
  · rw [ceCompM01]; norm_num
  · rw [ceCompM02]; norm_num
  · rw [ceCompM12]; norm_num
  · rw [ceWins1]; norm_num

lemma getD_pos (θ : List ℚ) (hpos : ∀ x ∈ θ, 0 < x) (k : ℕ) (hk : k < θ.length) :
    0 < θ.getD k 0 := by
  rw [List.getD_eq_getElem θ 0 hk]
  exact hpos _ (List.getElem_mem hk)

lemma getD_range_map (m k : ℕ) (f : ℕ → ℚ) (hk : k < m) :
    ((List.range m).map f).getD k 0 = f k := by
  rw [List.getD_eq_getElem _ 0 (by simp [hk])]
  simp

lemma getD_map_fun (θ : List ℚ) (f : ℚ → ℚ) (k : ℕ) (hk : k < θ.length) :
    (θ.map f).getD k 0 = f (θ.getD k 0) := by
  rw [List.getD_eq_getElem _ 0 (by simp [hk]), List.getD_eq_getElem θ 0 hk]
  simp

lemma sum_map_add (l : List ℕ) (f g : ℕ → ℚ) :
    (l.map (fun x => f x + g x)).sum = (l.map f).sum + (l.map g).sum := by
  induction l with
  | nil => simp
  | cons a l ih =>
    simp only [List.map_cons, List.sum_cons, ih]
    ring

lemma sum_ite_range (n j : ℕ) (c : ℚ) (hj : j < n) :
    ((List.range n).map (fun l => if l = j then c else 0)).sum = c := by
  induction n with
  | zero => omega
  | succ m ih =>
    rw [List.range_succ, List.map_append, List.sum_append]
    by_cases h : j = m
    · subst h
      rw [List.map_congr_left (fun l hl => if_neg (Nat.ne_of_lt (List.mem_range.mp hl)))]
      simp
    · rw [ih (by omega)]
      have hmj : ¬ (m = j) := fun hh => h hh.symm
      simp [hmj]

lemma sum_mem_pos (l : List ℚ) (h0 : ∀ x ∈ l, 0 ≤ x) (x : ℚ) (hx : x ∈ l)
    (hxp : 0 < x) : 0 < l.sum := by
  induction l with
  | nil => cases hx
  | cons a l ih =>
    rw [List.sum_cons]
    rcases List.mem_cons.mp hx with rfl | hx2
    · have h2 : 0 ≤ l.sum := List.sum_nonneg (fun y hy => h0 y (List.mem_cons_of_mem _ hy))
      linarith
    · have ha : 0 ≤ a := h0 a (List.mem_cons_self a l)
      have h2 := ih (fun y hy => h0 y (List.mem_cons_of_mem _ hy)) hx2
      linarith

lemma btDenom_pos (cands : List String) (comps : List (String × String × ℚ))
    (θ : List ℚ) (k : ℕ) (hlen : θ.length = cands.length)
    (hpos : ∀ x ∈ θ, 0 < x) (hk : k < cands.length) (hn2 : 2 ≤ cands.length)
    (honce : ∀ a b : ℕ, a < cands.length → b < cands.length → a ≠ b →
      btCompM cands comps a b = 1) :
    0 < btDenom cands comps θ k := by
  rw [btDenom_eval, hlen]
  have hl0n : (if k = 0 then 1 else 0) < cands.length := by
    by_cases h : k = 0 <;> simp [h] <;> omega
  have hl0k : k ≠ (if k = 0 then 1 else 0) := by
    by_cases h : k = 0 <;> simp [h]
  refine sum_mem_pos _ ?_
    ((fun l => if 0 < btCompM cands comps k l then
      btCompM cands comps k l / (θ.getD k 0 + θ.getD l 0) else 0) (if k = 0 then 1 else 0))
    (List.mem_map_of_mem _ (List.mem_range.mpr hl0n)) ?_
  · intro x hxm
    rcases List.mem_map.mp hxm with ⟨l, hl, rfl⟩
    have hln : l < θ.length := hlen ▸ List.mem_range.mp hl
    by_cases hc : 0 < btCompM cands comps k l
    · rw [if_pos hc]
      exact le_of_lt (div_pos hc
        (add_pos (getD_pos θ hpos k (hlen ▸ hk)) (getD_pos θ hpos l hln)))
    · rw [if_neg hc]
  · show 0 < if 0 < btCompM cands comps k (if k = 0 then 1 else 0) then
      btCompM cands comps k (if k = 0 then 1 else 0) /
        (θ.getD k 0 + θ.getD (if k = 0 then 1 else 0) 0) else 0
    rw [honce k (if k = 0 then 1 else 0) hk hl0n hl0k]
    rw [if_pos one_pos]
    exact div_pos one_pos
      (add_pos (getD_pos θ hpos k (hlen ▸ hk)) (getD_pos θ hpos _ (hlen ▸ hl0n)))

lemma btDenom_mono (cands : List String) (comps : List (String × String × ℚ))
    (θ : List ℚ) (i j : ℕ) (hlen : θ.length = cands.length)
    (hpos : ∀ x ∈ θ, 0 < x) (hi : i < cands.length) (hj : j < cands.length)
    (hij : i ≠ j)
    (hdiag : ∀ a, a < cands.length → btCompM cands comps a a = 0)
    (honce : ∀ a b : ℕ, a < cands.length → b < cands.length → a ≠ b →
      btCompM cands comps a b = 1)
    (hle : θ.getD j 0 ≤ θ.getD i 0) :
    btDenom cands comps θ i ≤ btDenom cands comps θ j := by
  rw [btDenom_eval, btDenom_eval, hlen]
  have hti : 0 < θ.getD i 0 := getD_pos θ hpos i (hlen ▸ hi)
  have htj : 0 < θ.getD j 0 := getD_pos θ hpos j (hlen ▸ hj)
  have hfi : ∀ l ∈ List.range cands.length,
      (if 0 < btCompM cands comps i l then
        btCompM cands comps i l / (θ.getD i 0 + θ.getD l 0) else 0) =
      (fun l => (if l = i ∨ l = j then 0 else 1 / (θ.getD i 0 + θ.getD l 0)) +
        (if l = j then 1 / (θ.getD i 0 + θ.getD j 0) else 0)) l := by
    intro l hl
    have hln : l < cands.length := List.mem_range.mp hl
    by_cases h1 : l = i
    · rw [h1, hdiag i hi]
      simp [hij]
    · by_cases h2 : l = j
      · rw [h2, honce i j hi hj hij]
        simp
      · rw [honce i l hi hln (fun hh => h1 hh.symm)]
        simp [h1, h2]
  have hfj : ∀ l ∈ List.range cands.length,
      (if 0 < btCompM cands comps j l then
        btCompM cands comps j l / (θ.getD j 0 + θ.getD l 0) else 0) =
      (fun l => (if l = i ∨ l = j then 0 else 1 / (θ.getD j 0 + θ.getD l 0)) +
        (if l = i then 1 / (θ.getD j 0 + θ.getD i 0) else 0)) l := by
    intro l hl
    have hln : l < cands.length := List.mem_range.mp hl
    by_cases h2 : l = j
    · have hji : ¬ (j = i) := fun hh => hij hh.symm
      rw [h2, hdiag j hj]
      simp [hji]
    · by_cases h1 : l = i
      · rw [h1, honce j i hj hi (fun hh => hij hh.symm)]
        simp
      · rw [honce j l hj hln (fun hh => h2 hh.symm)]
        simp [h1, h2]
  rw [List.map_congr_left hfi, List.map_congr_left hfj]
  rw [sum_map_add, sum_map_add]
  rw [sum_ite_range cands.length j _ hj, sum_ite_range cands.length i _ hi]
  rw [show θ.getD i 0 + θ.getD j 0 = θ.getD j 0 + θ.getD i 0 from add_comm _ _]
  apply add_le_add_right
  apply List.sum_le_sum
  intro l hl
  have hln : l < cands.length := List.mem_range.mp hl
  by_cases h12 : l = i ∨ l = j
  · simp [h12]
  · simp only [if_neg h12]
    apply one_div_le_one_div_of_le
    · exact add_pos htj (getD_pos θ hpos l (hlen ▸ hln))
    · exact add_le_add_right hle _

lemma btFloor_pos : 0 < btFloor := by
  rw [btFloor]
  norm_num

lemma btStep_length (cands : List String) (comps : List (String × String × ℚ))
    (θ : List ℚ) : (btStep cands comps θ).length = θ.length := by
  rw [btStep]
  simp

lemma btStep_getD (cands : List String) (comps : List (String × String × ℚ))
    (θ : List ℚ) (k : ℕ) (hk : k < θ.length) :
    (btStep cands comps θ).getD k 0 =
      if btWins cands comps k = 0 then btFloor
      else if 0 < btDenom cands comps θ k then
        btWins cands comps k / btDenom cands comps θ k
      else btFloor := by
  rw [btStep, getD_range_map _ _ _ hk]

lemma btStep_pos (cands : List String) (comps : List (String × String × ℚ))
    (θ : List ℚ) (hlen : θ.length = cands.length) (hpos : ∀ x ∈ θ, 0 < x)
    (hn2 : 2 ≤ cands.length)
    (honce : ∀ a b : ℕ, a < cands.length → b < cands.length → a ≠ b →
      btCompM cands comps a b = 1)
    (hWnn : ∀ k, k < cands.length → 0 ≤ btWins cands comps k) :
    ∀ x ∈ btStep cands comps θ, 0 < x := by
  intro x hx
  rw [btStep] at hx
  rcases List.mem_map.mp hx with ⟨k, hkr, rfl⟩
  have hk : k < cands.length := hlen ▸ List.mem_range.mp hkr
  by_cases hW : btWins cands comps k = 0
  · rw [if_pos hW]
    exact btFloor_pos
  · rw [if_neg hW]
    have hD := btDenom_pos cands comps θ k hlen hpos hk hn2 honce
    show 0 < if 0 < btDenom cands comps θ k then
      btWins cands comps k / btDenom cands comps θ k else btFloor
    rw [if_pos hD]
    exact div_pos (lt_of_le_of_ne (hWnn k hk) (Ne.symm hW)) hD

lemma btStep_lt (cands : List String) (comps : List (String × String × ℚ))
    (θ : List ℚ) (i j : ℕ) (hlen : θ.length = cands.length)
    (hpos : ∀ x ∈ θ, 0 < x) (hi : i < cands.length) (hj : j < cands.length)
    (hij : i ≠ j) (hn2 : 2 ≤ cands.length)
    (hdiag : ∀ a, a < cands.length → btCompM cands comps a a = 0)
    (honce : ∀ a b : ℕ, a < cands.length → b < cands.length → a ≠ b →
      btCompM cands comps a b = 1)
    (hWj : 0 < btWins cands comps j)
    (hWij : btWins cands comps j < btWins cands comps i)
    (hle : θ.getD j 0 ≤ θ.getD i 0) :
    (btStep cands comps θ).getD j 0 < (btStep cands comps θ).getD i 0 := by
  rw [btStep_getD _ _ _ _ (by rw [hlen]; exact hj),
    btStep_getD _ _ _ _ (by rw [hlen]; exact hi)]
  have hWi : 0 < btWins cands comps i := lt_trans hWj hWij
  rw [if_neg (ne_of_gt hWj), if_neg (ne_of_gt hWi)]
  have hDi := btDenom_pos cands comps θ i hlen hpos hi hn2 honce
  have hDj := btDenom_pos cands comps θ j hlen hpos hj hn2 honce
  rw [if_pos hDj, if_pos hDi]
  have hDij := btDenom_mono cands comps θ i j hlen hpos hi hj hij hdiag honce hle
  rw [div_lt_div_iff₀ hDj hDi]
  have h1 := mul_le_mul_of_nonneg_left hDij (le_of_lt hWj)
  have h2 := mul_lt_mul_of_pos_right hWij hDj
  linarith

/-- The invariant carried through the MM iteration. -/
def btInv (cands : List String) (i j : ℕ) (θ : List ℚ) : Prop :=
  θ.length = cands.length ∧ (∀ x ∈ θ, 0 < x) ∧ θ.getD j 0 ≤ θ.getD i 0

lemma btStep_inv (cands : List String) (comps : List (String × String × ℚ))
    (θ : List ℚ) (i j : ℕ) (hi : i < cands.length) (hj : j < cands.length)
    (hij : i ≠ j) (hn2 : 2 ≤ cands.length)
    (hdiag : ∀ a, a < cands.length → btCompM cands comps a a = 0)
    (honce : ∀ a b : ℕ, a < cands.length → b < cands.length → a ≠ b →
      btCompM cands comps a b = 1)
    (hWnn : ∀ k, k < cands.length → 0 ≤ btWins cands comps k)
    (hWj : 0 < btWins cands comps j)
    (hWij : btWins cands comps j < btWins cands comps i)
    (h : btInv cands i j θ) : btInv cands i j (btStep cands comps θ) :=
  ⟨by rw [btStep_length, h.1],
   btStep_pos cands comps θ h.1 h.2.1 hn2 honce hWnn,
   le_of_lt (btStep_lt cands comps θ i j h.1 h.2.1 hi hj hij hn2 hdiag honce
     hWj hWij h.2.2)⟩

lemma btLoop_shape (cands : List String) (comps : List (String × String × ℚ))
    (tol : ℚ) (i j : ℕ) (hi : i < cands.length) (hj : j < cands.length)
    (hij : i ≠ j) (hn2 : 2 ≤ cands.length)
    (hdiag : ∀ a, a < cands.length → btCompM cands comps a a = 0)
    (honce : ∀ a b : ℕ, a < cands.length → b < cands.length → a ≠ b →
      btCompM cands comps a b = 1)
    (hWnn : ∀ k, k < cands.length → 0 ≤ btWins cands comps k)
    (hWj : 0 < btWins cands comps j)
    (hWij : btWins cands comps j < btWins cands comps i) :
    ∀ fuel θ, btInv cands i j θ →
      ∃ θ2, btInv cands i j θ2 ∧
        btLoop cands comps tol (fuel + 1) θ = btStep cands comps θ2 := by
  intro fuel
  induction fuel with
  | zero =>
    intro θ h
    refine ⟨θ, h, ?_⟩
    rw [btLoop]
    split
    · rfl
    · rw [btLoop]
  | succ m ih =>
    intro θ h
    rw [btLoop]
    split
    · exact ⟨θ, h, rfl⟩
    · exact ih (btStep cands comps θ)
        (btStep_inv cands comps θ i j hi hj hij hn2 hdiag honce hWnn hWj hWij h)

lemma btLoop_clamp (cands : List String) (comps : List (String × String × ℚ))
    (tol : ℚ) (k : ℕ) (hk : k < cands.length)
    (hW : btWins cands comps k = 0) :
    ∀ fuel θ, θ.length = cands.length →
      (btLoop cands comps tol (fuel + 1) θ).getD k 0 = btFloor := by
  intro fuel
  induction fuel with
  | zero =>
    intro θ hlen
    rw [btLoop]
    split
    · rw [btStep_getD _ _ _ _ (by rw [hlen]; exact hk), if_pos hW]
    · rw [btLoop, btStep_getD _ _ _ _ (by rw [hlen]; exact hk), if_pos hW]
  | succ m ih =>
    intro θ hlen
    rw [btLoop]
    split
    · rw [btStep_getD _ _ _ _ (by rw [hlen]; exact hk), if_pos hW]
    · exact ih (btStep cands comps θ) (by rw [btStep_length, hlen])

lemma dictFind_append_single (l : List (String × ℚ)) (p : String × ℚ) (k : String) :
    dictFind (l ++ [p]) k = if p.1 == k then some p.2 else dictFind l k := by
  rw [dictFind, dictFind, List.foldl_append]
  rfl

lemma dictFind_eq_findRev (l : List (String × ℚ)) (k : String) :
    dictFind l k = (l.reverse.find? (fun p => p.1 == k)).map Prod.snd := by
  induction l using List.reverseRecOn with
  | nil => rfl
  | append_singleton l p ih =>
    rw [dictFind_append_single, List.reverse_append]
    by_cases hc : (p.1 == k) = true
    · simp [hc]
    · simp [hc, ih]

lemma find?_unique {α : Type} (l : List α) (p : α → Bool) (a : α) (ha : a ∈ l)
    (hpa : p a = true) (huniq : ∀ b ∈ l, p b = true → b = a) :
    l.find? p = some a := by
  induction l with
  | nil => cases ha
  | cons x xs ih =>
    by_cases hx : p x = true
    · rw [List.find?_cons_of_pos _ hx]
      rw [huniq x (List.mem_cons_self x xs) hx]
    · rw [List.find?_cons_of_neg _ hx]
      rcases List.mem_cons.mp ha with rfl | ha2
      · exact absurd hpa hx
      · exact ih ha2 (fun b hb hpb => huniq b (List.mem_cons_of_mem _ hb) hpb)

lemma dictFind_enum (cands : List String) (thetas : List ℚ) (i : ℕ)
    (hi : i < cands.length) (hnd : cands.Nodup) :
    dictFind (cands.enum.map (fun p => (p.2, thetas.getD p.1 0)))
        (cands.get ⟨i, hi⟩) =
      some (thetas.getD i 0) := by
  rw [dictFind_eq_findRev, ← List.map_reverse, List.find?_map]
  have hmem : (i, cands.get ⟨i, hi⟩) ∈ cands.enum.reverse := by
    rw [List.mem_reverse]
    have hel : i < cands.enum.length := by rw [List.enum_length]; exact hi
    have h1 : cands.enum.get ⟨i, hel⟩ ∈ cands.enum := List.get_mem _ _ hel
    have h2 : cands.enum.get ⟨i, hel⟩ = (i, cands.get ⟨i, hi⟩) := by
      rw [List.get_eq_getElem, List.get_eq_getElem]
      exact List.getElem_enum cands i hel
    rwa [h2] at h1
  have huniq : ∀ b ∈ cands.enum.reverse,
      ((fun q : ℕ × String => q.2 == cands.get ⟨i, hi⟩) b) = true →
        b = (i, cands.get ⟨i, hi⟩) := by
    intro b hb hpb
    rw [List.mem_reverse] at hb
    rcases List.mem_iff_getElem.mp hb with ⟨m, hm, hbm⟩
    have hmlen : m < cands.length := by
      have := hm
      rwa [List.enum_length] at this
    have hbval : b = (m, cands[m]) := by
      rw [← hbm, List.getElem_enum]
    rw [hbval] at hpb
    have heq : cands[m] = cands.get ⟨i, hi⟩ := by
      have := hpb
      rwa [beq_iff_eq] at this
    rw [List.get_eq_getElem] at heq
    have hmi : m = i := by
      exact (List.Nodup.getElem_inj_iff hnd).mp heq
    subst hmi
    rw [hbval, List.get_eq_getElem]
  rw [find?_unique cands.enum.reverse
    ((fun p : String × ℚ => p.1 == cands.get ⟨i, hi⟩) ∘
      fun p : ℕ × String => (p.2, thetas.getD p.1 0))
    (i, cands.get ⟨i, hi⟩) hmem (by simp [Function.comp]) huniq]
  rfl

lemma btLoop_length (cands : List String) (comps : List (String × String × ℚ))
    (tol : ℚ) : ∀ fuel θ, (btLoop cands comps tol fuel θ).length = θ.length := by
  intro fuel
  induction fuel with
  | zero => intro θ; rfl
  | succ m ih =>
    intro θ
    rw [btLoop]
    split
    · rw [btStep_length]
    · rw [ih, btStep_length]

lemma compute_bt_mm_getD (cands : List String) (comps : List (String × String × ℚ))
    (maxIter : ℕ) (tol : ℚ) (hne : cands.isEmpty = false) (k : ℕ)
    (hk : k < cands.length) (hnd : cands.Nodup) :
    dictGet (compute_bt_mm cands comps maxIter tol) (cands.get ⟨k, hk⟩) 0 =
      (if 0 < (btLoop cands comps tol maxIter (List.replicate cands.length 1)).sum then
        (btLoop cands comps tol maxIter (List.replicate cands.length 1)).getD k 0 /
          (btLoop cands comps tol maxIter (List.replicate cands.length 1)).sum * 1000
      else (btLoop cands comps tol maxIter (List.replicate cands.length 1)).getD k 0) := by
  rw [compute_bt_mm]
  simp only [hne, Bool.false_eq_true, if_false]
  rw [dictGet, dictFind_enum cands _ k hk hnd]
  show (if 0 < _ then _ else _ : List ℚ).getD k 0 = _
  split
  · rw [getD_map_fun _ _ k (by rw [btLoop_length, List.length_replicate]; exact hk)]
  · rfl

/-- **C2** (amended) — BT-MM monotonicity restricted to simple fully
connected graphs: when every unordered pair of (distinct, deduplicated)
candidates has been compared exactly once (`comp_matrix[a][b] = 1` off the
diagonal, `0` on it) and all weighted win totals are nonnegative, a
candidate `i` with a strictly larger positive weighted win total than
candidate `j` receives a strictly higher final score from `compute_bt_mm`;
and every candidate with zero weighted wins is clamped to exactly the floor
`1e-10` before rescaling.  The unrestricted claim — `j` scoring above every
zero-win candidate — is refuted by the counterexample below, where repeated
comparisons of a single pair drive `j` beneath the clamped floor. -/
theorem bt_monotonicity (cands : List String) (comps : List (String × String × ℚ))
    (i j : ℕ) (hi : i < cands.length) (hj : j < cands.length) (hij : i ≠ j)
    (hnd : cands.Nodup)
    (hdiag : ∀ a, a < cands.length → btCompM cands comps a a = 0)
    (honce : ∀ a b : ℕ, a < cands.length → b < cands.length → a ≠ b →
      btCompM cands comps a b = 1)
    (hWnn : ∀ k, k < cands.length → 0 ≤ btWins cands comps k)
    (hWj : 0 < btWins cands comps j)
    (hWij : btWins cands comps j < btWins cands comps i)
    (maxIter : ℕ) (hIter : 0 < maxIter) (tol : ℚ) :
    dictGet (compute_bt_mm cands comps maxIter tol) (cands.get ⟨j, hj⟩) 0 <
      dictGet (compute_bt_mm cands comps maxIter tol) (cands.get ⟨i, hi⟩) 0 ∧
    ∀ k, k < cands.length → btWins cands comps k = 0 →
      (btLoop cands comps tol maxIter (List.replicate cands.length 1)).getD k 0 =
        btFloor := by
  have hn2 : 2 ≤ cands.length := by omega
  obtain ⟨m, rfl⟩ : ∃ m, maxIter = m + 1 := ⟨maxIter - 1, by omega⟩
  have hne : cands.isEmpty = false := by
    cases cands with
    | nil => simp at hn2
    | cons a l => rfl
  have hInv0 : btInv cands i j (List.replicate cands.length 1) := by
    refine ⟨List.length_replicate _ _, ?_, ?_⟩
    · intro x hx
      rw [List.eq_of_mem_replicate hx]
      norm_num
    · have hgi : (List.replicate cands.length (1:ℚ)).getD i 0 = 1 := by
        rw [List.getD_eq_getElem _ _ (by rw [List.length_replicate]; exact hi)]
        simp
      have hgj : (List.replicate cands.length (1:ℚ)).getD j 0 = 1 := by
        rw [List.getD_eq_getElem _ _ (by rw [List.length_replicate]; exact hj)]
        simp
      rw [hgi, hgj]
  obtain ⟨θ2, hInv2, hEq⟩ := btLoop_shape cands comps tol i j hi hj hij hn2 hdiag
    honce hWnn hWj hWij m (List.replicate cands.length 1) hInv0
  constructor
  · rw [compute_bt_mm_getD cands comps (m + 1) tol hne j hj hnd,
      compute_bt_mm_getD cands comps (m + 1) tol hne i hi hnd]
    have hlenF : (btLoop cands comps tol (m + 1)
        (List.replicate cands.length 1)).length = cands.length := by
      rw [btLoop_length, List.length_replicate]
    have hposF : ∀ x ∈ btLoop cands comps tol (m + 1)
        (List.replicate cands.length 1), 0 < x := by
      rw [hEq]
      exact btStep_pos cands comps θ2 hInv2.1 hInv2.2.1 hn2 honce hWnn
    have hltF : (btLoop cands comps tol (m + 1)
          (List.replicate cands.length 1)).getD j 0 <
        (btLoop cands comps tol (m + 1)
          (List.replicate cands.length 1)).getD i 0 := by
      rw [hEq]
      exact btStep_lt cands comps θ2 i j hInv2.1 hInv2.2.1 hi hj hij hn2 hdiag
        honce hWj hWij hInv2.2.2
    have hjmem : (btLoop cands comps tol (m + 1)
        (List.replicate cands.length 1)).getD j 0 ∈
          btLoop cands comps tol (m + 1) (List.replicate cands.length 1) := by
      rw [List.getD_eq_getElem _ _ (by rw [hlenF]; exact hj)]
      exact List.getElem_mem _
    have hsum : 0 < (btLoop cands comps tol (m + 1)
        (List.replicate cands.length 1)).sum :=
      sum_mem_pos _ (fun x hx => le_of_lt (hposF x hx)) _ hjmem
        (getD_pos _ hposF j (by rw [hlenF]; exact hj))
    rw [if_pos hsum, if_pos hsum]
    have h1 : (btLoop cands comps tol (m + 1)
          (List.replicate cands.length 1)).getD j 0 /
        (btLoop cands comps tol (m + 1) (List.replicate cands.length 1)).sum <
        (btLoop cands comps tol (m + 1)
          (List.replicate cands.length 1)).getD i 0 /
        (btLoop cands comps tol (m + 1) (List.replicate cands.length 1)).sum := by
      rw [div_lt_div_iff₀ hsum hsum]
      exact mul_lt_mul_of_pos_right hltF hsum
    exact mul_lt_mul_of_pos_right h1 (by norm_num)
  · intro k hk hW
    exact btLoop_clamp cands comps tol k hk hW m (List.replicate cands.length 1)
      (List.length_replicate _ _)

def wCands : List String := ["A", "B", "C"]

def wComps : List (String × String × ℚ) := [("A", "B", 1), ("A", "C", 1), ("B", "C", 1)]

lemma wIdxA : idxMap wCands "A" = 0 := rfl

lemma wIdxB : idxMap wCands "B" = 1 := rfl

lemma wIdxC : idxMap wCands "C" = 2 := rfl

lemma wDiag : ∀ a, a < wCands.length → btCompM wCands wComps a a = 0 := by
  intro a ha
  have h3 : a < 3 := by simpa [wCands] using ha
  interval_cases a <;>
    simp [btCompM, btCompMContrib, wComps, wIdxA, wIdxB, wIdxC]

lemma wOnce : ∀ a b : ℕ, a < wCands.length → b < wCands.length → a ≠ b →
    btCompM wCands wComps a b = 1 := by
  intro a b ha hb hab
  have h3a : a < 3 := by simpa [wCands] using ha
  have h3b : b < 3 := by simpa [wCands] using hb
  interval_cases a <;> interval_cases b <;>
    simp_all [btCompM, btCompMContrib, wComps, wIdxA, wIdxB, wIdxC]

lemma wWins0 : btWins wCands wComps 0 = 2 := by
  simp [btWins, btWinsContrib, wComps, wIdxA, wIdxB, wIdxC]
  norm_num

lemma wWins1 : btWins wCands wComps 1 = 1 := by
  simp [btWins, btWinsContrib, wComps, wIdxA, wIdxB, wIdxC]

lemma wWins2 : btWins wCands wComps 2 = 0 := by
  simp [btWins, btWinsContrib, wComps, wIdxA, wIdxB, wIdxC]

lemma wWnn : ∀ k, k < wCands.length → 0 ≤ btWins wCands wComps k := by
  intro k hk
  have h3 : k < 3 := by simpa [wCands] using hk
  interval_cases k
  · rw [wWins0]; norm_num
  · rw [wWins1]; norm_num
  · rw [wWins2]

/-- Instantiation of `bt_monotonicity` on the fully connected pair-once
graph `A beats B`, `A beats C`, `B beats C` with `i = 0` (`A`), `j = 1`
(`B`) and the default `max_iter = 100`, `tol = 1e-6`. -/
theorem bt_monotonicity_witness :
    (0 : ℕ) ≠ 1 ∧ wCands.Nodup ∧
    (∀ a, a < wCands.length → btCompM wCands wComps a a = 0) ∧
    (∀ a b : ℕ, a < wCands.length → b < wCands.length → a ≠ b →
      btCompM wCands wComps a b = 1) ∧
    (∀ k, k < wCands.length → 0 ≤ btWins wCands wComps k) ∧
    0 < btWins wCands wComps 1 ∧
    btWins wCands wComps 1 < btWins wCands wComps 0 ∧
    (dictGet (compute_bt_mm wCands wComps 100 (1 / 10 ^ 6))
        (wCands.get ⟨1, by decide⟩) 0 <
      dictGet (compute_bt_mm wCands wComps 100 (1 / 10 ^ 6))
        (wCands.get ⟨0, by decide⟩) 0 ∧
     ∀ k, k < wCands.length → btWins wCands wComps k = 0 →
       (btLoop wCands wComps (1 / 10 ^ 6) 100
         (List.replicate wCands.length 1)).getD k 0 = btFloor) :=
  ⟨by decide, by decide, wDiag, wOnce, wWnn,
   by rw [wWins1]; norm_num,
   by rw [wWins1, wWins0]; norm_num,
   bt_monotonicity wCands wComps 0 1 (by decide) (by decide) (by decide) (by decide)
     wDiag wOnce wWnn (by rw [wWins1]; norm_num) (by rw [wWins1, wWins0]; norm_num)
     100 (by decide) (1 / 10 ^ 6)⟩

end BTMM
